import Mathlib

/-!
# Snow-Pi map viewer

A shallow embedding of `src/map_viewer.c` (the offline MBTiles map viewer of the
Snow-Pi dashboard) together with the properties its specification states.

Modelling conventions

* A C `int` is an `Int` in the range `INT_MIN .. INT_MAX`; signed addition and
  subtraction are followed by `wrap32` (two's complement wrap-around), so a
  theorem that needs "no overflow" says so in a hypothesis.
* A C `double` is a real number and `M_PI` is the real `π`: the specification
  states its formulas in exact arithmetic over the reals, and the embedding
  follows that idealisation.  Definitions that compute with reals are
  `noncomputable`; everything on integers and booleans is executable.
* Where a property is not stated over the reals, the double computation is also
  given in binary64 arithmetic (`fl`, round to nearest, ties to even):
  `map_viewer_pan_fl` and `latlon_to_tile_x_fl`.
* The conversion `(int) x` of a double truncates toward zero and is undefined
  when the truncated value does not fit an `int`; it is modelled by
  `double_to_int : ℝ → Option Int`.
* C integer division `/` truncates toward zero and is `Int.tdiv`.
* Pointers to library objects (`sqlite3 *`, `SDL_Renderer *`) are handles:
  `Option Nat` where `NULL` is possible, `Nat` otherwise.  What the libraries
  answer is a parameter of the model (`Env`).
-/

namespace SnowPi

/-! ## Machine integers -/

/-- Smallest value of a 32-bit C `int`. -/
def INT_MIN : Int := -2147483648

/-- Largest value of a 32-bit C `int`. -/
def INT_MAX : Int := 2147483647

/-- The integer fits a C `int`. -/
def is_int (x : Int) : Prop := INT_MIN ≤ x ∧ x ≤ INT_MAX

instance (x : Int) : Decidable (is_int x) := by
  unfold is_int; exact inferInstance

/-- Two's complement wrap-around of an integer into the range of a C `int`. -/
def wrap32 (x : Int) : Int := (x + 2147483648) % 4294967296 - 2147483648

/-! ## Doubles -/

/-- The macro `M_PI` (map_viewer.c:16-18), idealised as the real number π. -/
noncomputable def M_PI : ℝ := Real.pi

/-- Truncation toward zero: the integral part that `(int) x` keeps. -/
noncomputable def c_trunc (x : ℝ) : Int := if 0 ≤ x then ⌊x⌋ else ⌈x⌉

/-- The C conversion `(int) x` of a double: the value truncated toward zero when
that fits an `int`, undefined (`none`) otherwise. -/
noncomputable def double_to_int (x : ℝ) : Option Int :=
  if is_int (c_trunc x) then some (c_trunc x) else none

/-! ## Data model (map_viewer.c:20-29) -/

/-- The macro `TILE_SIZE` (map_viewer.c:20). -/
def TILE_SIZE : Int := 256

/-- The struct `MapViewer` (map_viewer.c:22-29). -/
structure MapViewer where
  db : Option Nat
  renderer : Nat
  center_lat : ℝ
  center_lon : ℝ
  zoom_level : Int
  active : Bool

/-- The viewport invariant of the data model: the zoom level lies in 0..18. -/
def zoom_inv (viewer : MapViewer) : Prop :=
  0 ≤ viewer.zoom_level ∧ viewer.zoom_level ≤ 18

/-! ## Projection (map_viewer.c:32-38) -/

/-- The double expression that line 36 converts to `*tile_x`, evaluated in exact
real arithmetic (`tile_x_fl` is the binary64 evaluation). -/
noncomputable def tile_x_real (lon : ℝ) (zoom : Int) : ℝ :=
  let n : ℝ := (2.0 : ℝ) ^ zoom
  (lon + 180.0) / 360.0 * n

/-- The double expression that line 37 converts to `*tile_y`, evaluated in exact
real arithmetic. -/
noncomputable def tile_y_real (lat : ℝ) (zoom : Int) : ℝ :=
  let lat_rad : ℝ := lat * M_PI / 180.0
  let n : ℝ := (2.0 : ℝ) ^ zoom
  (1.0 - Real.log (Real.tan lat_rad + 1.0 / Real.cos lat_rad) / M_PI) / 2.0 * n

/-- Line 36 of `latlon_to_tile`: the value stored in `*tile_x`. -/
noncomputable def latlon_to_tile_x (lon : ℝ) (zoom : Int) : Option Int :=
  double_to_int (tile_x_real lon zoom)

/-- Line 37 of `latlon_to_tile`: the value stored in `*tile_y`. -/
noncomputable def latlon_to_tile_y (lat : ℝ) (zoom : Int) : Option Int :=
  double_to_int (tile_y_real lat zoom)

/-- The function `latlon_to_tile` (map_viewer.c:32-38): the pair written to
`(*tile_x, *tile_y)`, defined when both conversions are. -/
noncomputable def latlon_to_tile (lat lon : ℝ) (zoom : Int) : Option (Int × Int) :=
  match latlon_to_tile_x lon zoom, latlon_to_tile_y lat zoom with
  | some tile_x, some tile_y => some (tile_x, tile_y)
  | _, _ => none

/-! ## Initialisation (map_viewer.c:41-57) -/

/-- The return code `SQLITE_OK`. -/
def SQLITE_OK : Int := 0

/-- The function `map_viewer_init` (map_viewer.c:41-57).  `sqlite3_open` is the
library call: it answers a return code and the handle it stores in `db`. -/
def map_viewer_init (sqlite3_open : String → Int × Option Nat)
    (mbtiles_path : String) (renderer : Nat) : Bool × MapViewer :=
  let opened := sqlite3_open mbtiles_path
  let viewer : MapViewer :=
    { db := opened.2
      renderer := renderer
      center_lat := 46.8797
      center_lon := -84.3397
      zoom_level := 10
      active := false }
  if opened.1 ≠ SQLITE_OK then (false, viewer) else (true, viewer)

/-! ## Tile lookup (map_viewer.c:60-114) -/

/-- The three parameters bound to the lookup statement
`SELECT tile_data FROM tiles WHERE zoom_level=? AND tile_column=? AND tile_row=?`. -/
structure TileKey where
  zoom_level : Int
  tile_column : Int
  tile_row : Int
deriving DecidableEq, Repr

/-- The C expression `1 << zoom` on ints.  It is `2 ^ zoom` for `zoom` in 0..30.
Outside that range the C shift is undefined; the value given here is a placeholder,
and every statement about the key of a lookup restricts `zoom` to 0..30. -/
def shl_one (zoom : Int) : Int := wrap32 (2 ^ zoom.toNat)

/-- Lines 64-65 of `map_viewer_get_tile`: `max_y = (1 << zoom) - 1` and
`tms_y = max_y - tile_y`. -/
def tms_row (zoom tile_y : Int) : Int :=
  let max_y := wrap32 (shl_one zoom - 1)
  wrap32 (max_y - tile_y)

/-- Lines 64-65 and 75-77 of `map_viewer_get_tile`: the key the statement is
executed with. -/
def lookup_key (zoom tile_x tile_y : Int) : TileKey :=
  { zoom_level := zoom, tile_column := tile_x, tile_row := tms_row zoom tile_y }

/-- An SDL surface as far as the viewer can tell them apart: one loaded from tile
bytes, or one created blank and filled with a single colour. -/
inductive Surface
  | loaded (bytes : List Nat)
  | filled (w h : Int) (r g b : Nat)
deriving DecidableEq, Repr

/-- An SDL texture: the renderer it belongs to and the surface it was made from. -/
structure Texture where
  renderer : Nat
  surface : Surface
deriving DecidableEq, Repr

/-- What the libraries answer to `map_viewer_get_tile`. -/
structure Env where
  /-- Return code of `sqlite3_prepare_v2` on a database handle. -/
  prepare_v2 : Option Nat → Int
  /-- Executing the statement: `some bytes` when `sqlite3_step` is `SQLITE_ROW`
  (the `tile_data` of that row), `none` for every other return code. -/
  step_row : Option Nat → TileKey → Option (List Nat)
  /-- Whether `SDL_IOFromConstMem` returns a stream. -/
  io_from_const_mem : List Nat → Bool
  /-- Whether `SDL_LoadBMP_IO` decodes the bytes. -/
  load_bmp : List Nat → Bool
  /-- Whether `SDL_CreateSurface` returns a surface. -/
  create_surface : Bool
  /-- Whether `SDL_CreateTextureFromSurface` returns a texture. -/
  create_texture : Surface → Bool

/-- Lines 81-110 of `map_viewer_get_tile`: what becomes of the outcome of
`sqlite3_step`. -/
def decode_row (env : Env) (viewer : MapViewer) (row : Option (List Nat)) :
    Option Texture :=
  match row with
  | none => none
  | some blob =>
    if env.io_from_const_mem blob then
      let surface : Option Surface :=
        if env.load_bmp blob then some (Surface.loaded blob)
        else if env.create_surface then
          some (Surface.filled TILE_SIZE TILE_SIZE 100 120 140)
        else none
      match surface with
      | some s =>
        if env.create_texture s then some { renderer := viewer.renderer, surface := s }
        else none
      | none => none
    else none

/-- The function `map_viewer_get_tile` (map_viewer.c:60-114); `none` is `NULL`. -/
def map_viewer_get_tile (env : Env) (viewer : MapViewer) (zoom tile_x tile_y : Int) :
    Option Texture :=
  if env.prepare_v2 viewer.db ≠ SQLITE_OK then none
  else decode_row env viewer (env.step_row viewer.db (lookup_key zoom tile_x tile_y))

/-! ## Viewport operations (map_viewer.c:161-194) -/

/-- The function `map_viewer_update_position` (map_viewer.c:161-164). -/
def map_viewer_update_position (viewer : MapViewer) (lat lon : ℝ) : MapViewer :=
  { viewer with center_lat := lat, center_lon := lon }

/-- The local `meters_per_pixel` of `map_viewer_pan` (map_viewer.c:169-170),
evaluated in exact real arithmetic. -/
noncomputable def meters_per_pixel (viewer : MapViewer) : ℝ :=
  (40075016.686 * Real.cos (viewer.center_lat * M_PI / 180.0)) /
    ((2.0 : ℝ) ^ (wrap32 (viewer.zoom_level + 8)))

/-- The function `map_viewer_pan` (map_viewer.c:167-174), evaluated in exact real
arithmetic (`map_viewer_pan_fl` is the binary64 evaluation). -/
noncomputable def map_viewer_pan (viewer : MapViewer) (dx dy : Int) : MapViewer :=
  let m : ℝ := meters_per_pixel viewer
  let viewer1 : MapViewer :=
    { viewer with center_lon := viewer.center_lon + (dx : ℝ) * m / 111320.0 }
  { viewer1 with center_lat := viewer1.center_lat - (dy : ℝ) * m / 110540.0 }

/-- The function `map_viewer_zoom` (map_viewer.c:177-181). -/
def map_viewer_zoom (viewer : MapViewer) (delta : Int) : MapViewer :=
  let viewer1 : MapViewer :=
    { viewer with zoom_level := wrap32 (viewer.zoom_level + delta) }
  let viewer2 : MapViewer :=
    if viewer1.zoom_level < 0 then { viewer1 with zoom_level := 0 } else viewer1
  if viewer2.zoom_level > 18 then { viewer2 with zoom_level := 18 } else viewer2

/-- The function `map_viewer_toggle` (map_viewer.c:184-186). -/
def map_viewer_toggle (viewer : MapViewer) : MapViewer :=
  { viewer with active := !viewer.active }

/-- The function `map_viewer_cleanup` (map_viewer.c:189-194), with the number of
`sqlite3_close` calls it makes. -/
def map_viewer_cleanup (viewer : MapViewer) : MapViewer × Nat :=
  match viewer.db with
  | some _ => ({ viewer with db := none }, 1)
  | none => (viewer, 0)

/-! ## The viewport as a state machine -/

/-- One call of a viewport operation of `map_viewer.h` after initialisation. -/
inductive ViewerOp
  | zoom (delta : Int)
  | pan (dx dy : Int)
  | update_position (lat lon : ℝ)
  | toggle
  | cleanup

/-- The viewport after one operation. -/
noncomputable def apply_op (viewer : MapViewer) : ViewerOp → MapViewer
  | ViewerOp.zoom delta => map_viewer_zoom viewer delta
  | ViewerOp.pan dx dy => map_viewer_pan viewer dx dy
  | ViewerOp.update_position lat lon => map_viewer_update_position viewer lat lon
  | ViewerOp.toggle => map_viewer_toggle viewer
  | ViewerOp.cleanup => (map_viewer_cleanup viewer).1

/-- The viewport after a sequence of operations, first to last. -/
noncomputable def run_ops (viewer : MapViewer) (ops : List ViewerOp) : MapViewer :=
  ops.foldl apply_op viewer

/-! ## Rendering (map_viewer.c:117-158) -/

/-- What `map_viewer_render` asks of the tile store and of SDL, in call order: the
calls of `map_viewer_get_tile` (line 138), `SDL_RenderTexture` with its destination
rectangle (lines 140-146), `SDL_SetRenderDrawColor` (line 153) and `SDL_RenderLine`
(lines 156-157).  Coordinates are the int values that the code converts to
`float`. -/
inductive RenderEvent
  | get_tile (zoom tile_x tile_y : Int)
  | render_texture (tile : Texture) (x y w h : Int)
  | set_draw_color (r g b a : Nat)
  | render_line (x1 y1 x2 y2 : Int)
deriving DecidableEq, Repr

/-- Lines 126-127 of `map_viewer_render`: `tiles_x = (screen_width / TILE_SIZE) + 2`
and `tiles_y = (screen_height / TILE_SIZE) + 2`, with C integer division. -/
def grid_tiles (screen : Int) : Int := wrap32 (screen.tdiv TILE_SIZE + 2)

/-- Lines 129-130 of `map_viewer_render`: `start_tile_x = center_tile_x - tiles_x / 2`
and `start_tile_y = center_tile_y - tiles_y / 2`. -/
def start_tile (center_tile tiles : Int) : Int := wrap32 (center_tile - tiles.tdiv 2)

/-- Lines 141-142 of `map_viewer_render`: the int converted to the `x` (`y`) of the
destination rectangle, `tx * TILE_SIZE - (screen_width / 2 - TILE_SIZE / 2)`. -/
def dest_offset (screen t : Int) : Int :=
  wrap32 (wrap32 (t * TILE_SIZE) - wrap32 (screen.tdiv 2 - TILE_SIZE.tdiv 2))

/-- Lines 135-148 of `map_viewer_render`: the body of the inner loop for the grid
cell `(tx, ty)`. -/
def render_cell (env : Env) (viewer : MapViewer)
    (start_tile_x start_tile_y screen_width screen_height : Int) (ty tx : Int) :
    List RenderEvent :=
  let tile_x := wrap32 (start_tile_x + tx)
  let tile_y := wrap32 (start_tile_y + ty)
  RenderEvent.get_tile viewer.zoom_level tile_x tile_y ::
    (match map_viewer_get_tile env viewer viewer.zoom_level tile_x tile_y with
     | some tile =>
       [RenderEvent.render_texture tile (dest_offset screen_width tx)
          (dest_offset screen_height ty) TILE_SIZE TILE_SIZE]
     | none => [])

/-- Lines 125-157 of `map_viewer_render`: the pass over the grid and the crosshair,
once the centre tile is known. -/
def render_pass (env : Env) (viewer : MapViewer)
    (center_tile_x center_tile_y screen_width screen_height : Int) : List RenderEvent :=
  let tiles_x := grid_tiles screen_width
  let tiles_y := grid_tiles screen_height
  let start_tile_x := start_tile center_tile_x tiles_x
  let start_tile_y := start_tile center_tile_y tiles_y
  let cx := screen_width.tdiv 2
  let cy := screen_height.tdiv 2
  (List.range tiles_y.toNat).flatMap (fun ty =>
    (List.range tiles_x.toNat).flatMap (fun tx =>
      render_cell env viewer start_tile_x start_tile_y screen_width screen_height ty tx))
    ++ [RenderEvent.set_draw_color 255 0 0 255,
        RenderEvent.render_line (wrap32 (cx - 20)) cy (wrap32 (cx + 20)) cy,
        RenderEvent.render_line cx (wrap32 (cy - 20)) cx (wrap32 (cy + 20))]

/-- The function `map_viewer_render` (map_viewer.c:117-158): the calls it makes;
`none` when the projection of the centre is undefined. -/
noncomputable def map_viewer_render (env : Env) (viewer : MapViewer)
    (screen_width screen_height : Int) : Option (List RenderEvent) :=
  if !viewer.active then some []
  else
    match latlon_to_tile viewer.center_lat viewer.center_lon viewer.zoom_level with
    | some (center_tile_x, center_tile_y) =>
      some (render_pass env viewer center_tile_x center_tile_y screen_width screen_height)
    | none => none

/-- The tiles requested by a sequence of calls: the arguments of its
`map_viewer_get_tile` calls, in order. -/
def requested_tiles : List RenderEvent → List (Int × Int × Int)
  | [] => []
  | RenderEvent.get_tile zoom tile_x tile_y :: rest =>
    (zoom, tile_x, tile_y) :: requested_tiles rest
  | RenderEvent.render_texture _ _ _ _ _ :: rest => requested_tiles rest
  | RenderEvent.set_draw_color _ _ _ _ :: rest => requested_tiles rest
  | RenderEvent.render_line _ _ _ _ :: rest => requested_tiles rest

/-! ## Application (main.c) -/

/-- The macro `WINDOW_WIDTH` (main.c:31). -/
def WINDOW_WIDTH : Int := 800

/-- The macro `WINDOW_HEIGHT` (main.c:32). -/
def WINDOW_HEIGHT : Int := 480

/-- The archive path that `main` passes to `map_viewer_init` (main.c:155). -/
def MBTILES_PATH : String := "osm-2020-02-10-v3.11_canada_ontario.mbtiles"

/-- The enum `DriveMode` (main.c:55-58). -/
inductive DriveMode
  | MODE_DRIVE
  | MODE_REVERSE
deriving DecidableEq, Repr

/-- The key codes that `handle_events` tells apart (main.c:240-267). -/
inductive Key
  | SDLK_ESCAPE
  | SDLK_Q
  | SDLK_M
  | SDLK_S
  | SDLK_TAB
  | SDLK_LEFT
  | SDLK_RIGHT
  | SDLK_UP
  | SDLK_DOWN
  | SDLK_EQUALS
  | SDLK_PLUS
  | SDLK_MINUS
  | SDLK_SPACE
  | other
deriving DecidableEq, Repr

/-- An event returned by `SDL_PollEvent`.  A key-down event carries the live state
`keys[SDL_SCANCODE_R]` that line 260 reads while handling it. -/
inductive Event
  | SDL_EVENT_QUIT
  | SDL_EVENT_KEY_DOWN (key : Key) (r_held : Bool)
  | other
deriving DecidableEq, Repr

/-- The fields of `AppContext` (main.c:95-110) that `main`, `handle_events` and the
map branch of `render_dashboard` read or write. -/
structure AppContext where
  renderer : Nat
  map_viewer : MapViewer
  running : Bool
  boot_complete : Bool
  show_map : Bool
  drive_mode : DriveMode
  display_mode : Int
  throttle : ℝ

/-- Lines 137-157 of `main`: the context before the main loop, and whether
`map_viewer_init` succeeded.  A failure only prints a warning. -/
def app_start (sqlite3_open : String → Int × Option Nat) (renderer : Nat) :
    Bool × AppContext :=
  let r := map_viewer_init sqlite3_open MBTILES_PATH renderer
  (r.1,
   { renderer := renderer
     map_viewer := r.2
     running := true
     boot_complete := false
     show_map := false
     drive_mode := DriveMode.MODE_DRIVE
     display_mode := 0
     throttle := 0.0 })

/-- The `SDL_EVENT_KEY_DOWN` case of `handle_events` (main.c:239-269). -/
noncomputable def handle_key_down (ctx : AppContext) (key : Key) (r_held : Bool) :
    AppContext :=
  if key = Key.SDLK_ESCAPE ∨ key = Key.SDLK_Q then { ctx with running := false }
  else if key = Key.SDLK_M then
    { ctx with
      drive_mode :=
        if ctx.drive_mode = DriveMode.MODE_DRIVE then DriveMode.MODE_REVERSE
        else DriveMode.MODE_DRIVE }
  else if key = Key.SDLK_S then
    { ctx with display_mode := (wrap32 (ctx.display_mode + 1)).tmod 4 }
  else if key = Key.SDLK_TAB then
    { ctx with
      show_map := !ctx.show_map
      map_viewer := map_viewer_toggle ctx.map_viewer }
  else if ctx.show_map then
    if key = Key.SDLK_LEFT then
      { ctx with map_viewer := map_viewer_pan ctx.map_viewer (-50) 0 }
    else if key = Key.SDLK_RIGHT then
      { ctx with map_viewer := map_viewer_pan ctx.map_viewer 50 0 }
    else if key = Key.SDLK_UP ∧ r_held = false then
      { ctx with map_viewer := map_viewer_pan ctx.map_viewer 0 (-50) }
    else if key = Key.SDLK_DOWN then
      { ctx with map_viewer := map_viewer_pan ctx.map_viewer 0 50 }
    else if key = Key.SDLK_EQUALS ∨ key = Key.SDLK_PLUS then
      { ctx with map_viewer := map_viewer_zoom ctx.map_viewer 1 }
    else if key = Key.SDLK_MINUS then
      { ctx with map_viewer := map_viewer_zoom ctx.map_viewer (-1) }
    else ctx
  else if key = Key.SDLK_SPACE then { ctx with boot_complete := true }
  else ctx

/-- The body of the `SDL_PollEvent` loop of `handle_events` (main.c:234-271). -/
noncomputable def handle_event (ctx : AppContext) : Event → AppContext
  | Event.SDL_EVENT_QUIT => { ctx with running := false }
  | Event.SDL_EVENT_KEY_DOWN key r_held => handle_key_down ctx key r_held
  | Event.other => ctx

/-- The function `handle_events` (main.c:232-282): the pending events in order, then
the throttle update from the keyboard state (`keys_r`, `keys_up`). -/
noncomputable def handle_events (ctx : AppContext) (events : List Event)
    (keys_r keys_up : Bool) : AppContext :=
  let ctx1 := events.foldl handle_event ctx
  if keys_r ∨ keys_up then { ctx1 with throttle := min (ctx1.throttle + 0.05) 1.0 }
  else { ctx1 with throttle := max (ctx1.throttle - 0.08) 0.0 }

/-- The map branch of `render_dashboard` (main.c:425-455): the calls that
`map_viewer_render` makes in this frame; the boot screen and the gauges are not
recorded. -/
noncomputable def render_dashboard (env : Env) (ctx : AppContext) :
    Option (List RenderEvent) :=
  if !ctx.boot_complete then some []
  else if ctx.show_map then
    map_viewer_render env ctx.map_viewer WINDOW_WIDTH WINDOW_HEIGHT
  else some []

/-- The part of `update_dashboard` (main.c:284-290) that writes a field of
`AppContext` kept here: the boot screen ends once more than 3000 ms have elapsed
(`boot_elapsed`).  The rest of the function writes gauge data only. -/
def update_dashboard (ctx : AppContext) (boot_elapsed : Bool) : AppContext :=
  if !ctx.boot_complete then
    if boot_elapsed then { ctx with boot_complete := true } else ctx
  else ctx

/-- What one iteration of the main loop receives from outside: the pending events,
the keyboard state read after them, and whether the boot delay has elapsed. -/
structure FrameInput where
  events : List Event
  keys_r : Bool
  keys_up : Bool
  boot_elapsed : Bool

/-- The state changes of one iteration of the main loop (main.c:160-172):
`handle_events`, then `update_dashboard`. -/
noncomputable def frame (ctx : AppContext) (input : FrameInput) : AppContext :=
  update_dashboard (handle_events ctx input.events input.keys_r input.keys_up)
    input.boot_elapsed

/-- The main loop `while (ctx.running)` (main.c:160-172) over a sequence of frame
inputs: it stops at the first state with `running` false. -/
noncomputable def run_frames (ctx : AppContext) : List FrameInput → AppContext
  | [] => ctx
  | input :: rest => if ctx.running then run_frames (frame ctx input) rest else ctx

/-! ## Binary64 arithmetic

The definitions above compute with exact reals.  For the claims that do not
stipulate exact arithmetic, the double computations of `map_viewer_pan` and of the
column of `latlon_to_tile` are also given with every operation rounded to binary64. -/

/-- The viewport after a successful `map_viewer_init` and one `map_viewer_toggle`:
the default position, active. -/
def default_viewer : MapViewer :=
  { db := some 1, renderer := 0, center_lat := 46.8797, center_lon := -84.3397,
    zoom_level := 10, active := true }

/-- An archive that prepares the statement and holds no tile at all. -/
def empty_archive : Env :=
  { prepare_v2 := fun _ => 0, step_row := fun _ _ => none,
    io_from_const_mem := fun _ => true, load_bmp := fun _ => true,
    create_surface := true, create_texture := fun _ => true }

/-- An archive that holds a decodable BMP under every key. -/
def bmp_archive : Env :=
  { prepare_v2 := fun _ => 0, step_row := fun _ _ => some [66, 77],
    io_from_const_mem := fun _ => true, load_bmp := fun _ => true,
    create_surface := true, create_texture := fun _ => true }

/-- An archive that holds under every key bytes that `SDL_LoadBMP_IO` cannot decode
(a PNG signature). -/
def png_archive : Env :=
  { prepare_v2 := fun _ => 0, step_row := fun _ _ => some [137, 80, 78, 71],
    io_from_const_mem := fun _ => true, load_bmp := fun _ => false,
    create_surface := true, create_texture := fun _ => true }

/-- A `sqlite3_open` that fails with `SQLITE_CANTOPEN` (14) and leaves a handle. -/
def open_fails : String → Int × Option Nat := fun _ => (14, some 1)

/-- An archive whose statement cannot be prepared (return code `SQLITE_ERROR`, 1). -/
def failing_archive : Env :=
  { prepare_v2 := fun _ => 1, step_row := fun _ _ => none,
    io_from_const_mem := fun _ => true, load_bmp := fun _ => true,
    create_surface := true, create_texture := fun _ => true }

/-- An archive whose only tile sits under the key (10, 272, -2147482625), a negative
`tile_row`. -/
def negative_row_archive : Env :=
  { prepare_v2 := fun _ => 0,
    step_row := fun _ key =>
      if key = { zoom_level := 10, tile_column := 272, tile_row := -2147482625 } then
        some [66, 77]
      else none,
    io_from_const_mem := fun _ => true, load_bmp := fun _ => true,
    create_surface := true, create_texture := fun _ => true }

/-! ## Helper lemmas -/

theorem wrap32_of_is_int {x : Int} (h : is_int x) : wrap32 x = x := by
  unfold is_int INT_MIN INT_MAX at h
  unfold wrap32
  omega

theorem zoom_level_after_zoom (viewer : MapViewer) (delta : Int) :
    (map_viewer_zoom viewer delta).zoom_level
      = min 18 (max 0 (wrap32 (viewer.zoom_level + delta))) := by
  unfold map_viewer_zoom
  simp only []
  split_ifs <;> simp_all <;> omega

theorem zoom_inv_zoom (viewer : MapViewer) (delta : Int) :
    zoom_inv (map_viewer_zoom viewer delta) := by
  unfold zoom_inv
  rw [zoom_level_after_zoom]
  omega

theorem zoom_inv_apply_op (viewer : MapViewer) (op : ViewerOp) (h : zoom_inv viewer) :
    zoom_inv (apply_op viewer op) := by
  cases op with
  | zoom delta => exact zoom_inv_zoom viewer delta
  | pan dx dy => exact h
  | update_position lat lon => exact h
  | toggle => exact h
  | cleanup =>
    unfold apply_op map_viewer_cleanup
    cases hdb : viewer.db <;> simpa [zoom_inv] using h

theorem zoom_inv_run_ops (ops : List ViewerOp) :
    ∀ viewer : MapViewer, zoom_inv viewer → zoom_inv (run_ops viewer ops) := by
  induction ops with
  | nil => intro viewer h; exact h
  | cons op rest ih =>
    intro viewer h
    exact ih (apply_op viewer op) (zoom_inv_apply_op viewer op h)

theorem c_trunc_of_nonneg {x : ℝ} (h : 0 ≤ x) : c_trunc x = ⌊x⌋ := by
  unfold c_trunc
  rw [if_pos h]

theorem c_trunc_of_neg {x : ℝ} (h : x < 0) : c_trunc x = ⌈x⌉ := by
  unfold c_trunc
  rw [if_neg (not_le.mpr h)]

theorem double_to_int_of_is_int {x : ℝ} (h : is_int (c_trunc x)) :
    double_to_int x = some (c_trunc x) := by
  unfold double_to_int
  rw [if_pos h]

theorem double_to_int_of_not_is_int {x : ℝ} (h : ¬ is_int (c_trunc x)) :
    double_to_int x = none := by
  unfold double_to_int
  rw [if_neg h]

theorem two_zpow_pos (zoom : Int) : (0 : ℝ) < (2.0 : ℝ) ^ zoom :=
  zpow_pos (by norm_num) zoom

theorem tile_x_real_nonneg_iff (lon : ℝ) (zoom : Int) :
    0 ≤ tile_x_real lon zoom ↔ -180 ≤ lon := by
  unfold tile_x_real
  have hn := two_zpow_pos zoom
  constructor
  · intro h
    have h1 : 0 ≤ (lon + 180.0) / 360.0 := by
      by_contra hc
      push_neg at hc
      have := mul_neg_of_neg_of_pos hc hn
      simp only [] at h
      linarith
    have h2 : 0 ≤ lon + 180.0 := by
      by_contra hc
      push_neg at hc
      have : (lon + 180.0) / 360.0 < 0 := div_neg_of_neg_of_pos hc (by norm_num)
      linarith
    norm_num at h2
    linarith
  · intro h
    have h2 : 0 ≤ lon + 180.0 := by norm_num; linarith
    exact mul_nonneg (div_nonneg h2 (by norm_num)) hn.le

/-! ### The Mercator row expression -/

theorem sin_gt_neg_one {φ : ℝ} (h1 : -(Real.pi / 2) < φ) (h2 : φ < Real.pi / 2) :
    -1 < Real.sin φ := by
  have h := Real.sin_lt_sin_of_lt_of_le_pi_div_two (le_refl (-(Real.pi / 2))) h2.le h1
  rwa [Real.sin_neg, Real.sin_pi_div_two] at h

theorem cos_pos_of_lt {φ : ℝ} (h1 : -(Real.pi / 2) < φ) (h2 : φ < Real.pi / 2) :
    0 < Real.cos φ :=
  Real.cos_pos_of_mem_Ioo ⟨h1, h2⟩

theorem tan_add_sec_eq {φ : ℝ} (hc : 0 < Real.cos φ) :
    Real.tan φ + 1 / Real.cos φ = (1 + Real.sin φ) / Real.cos φ := by
  rw [Real.tan_eq_sin_div_cos]
  have hne : Real.cos φ ≠ 0 := hc.ne.symm
  norm_num
  field_simp
  ring

theorem tan_add_sec_pos {φ : ℝ} (h1 : -(Real.pi / 2) < φ) (h2 : φ < Real.pi / 2) :
    0 < Real.tan φ + 1 / Real.cos φ := by
  have hc := cos_pos_of_lt h1 h2
  have hs := sin_gt_neg_one h1 h2
  rw [tan_add_sec_eq hc]
  exact div_pos (by linarith) hc

theorem sinh_log_tan_add_sec {φ : ℝ} (h1 : -(Real.pi / 2) < φ) (h2 : φ < Real.pi / 2) :
    Real.sinh (Real.log (Real.tan φ + 1 / Real.cos φ)) = Real.tan φ := by
  have hc := cos_pos_of_lt h1 h2
  have hs := sin_gt_neg_one h1 h2
  have hg := tan_add_sec_pos h1 h2
  have hcne : Real.cos φ ≠ 0 := hc.ne.symm
  have hsne : 1 + Real.sin φ ≠ 0 := by linarith
  have hsq := Real.sin_sq_add_cos_sq φ
  rw [Real.sinh_eq, Real.exp_neg, Real.exp_log hg, tan_add_sec_eq hc,
    Real.tan_eq_sin_div_cos]
  field_simp
  nlinarith [hsq]

theorem log_tan_add_sec_le_pi_iff {φ : ℝ} (h1 : -(Real.pi / 2) < φ)
    (h2 : φ < Real.pi / 2) :
    Real.log (Real.tan φ + 1 / Real.cos φ) ≤ Real.pi
      ↔ φ ≤ Real.arctan (Real.sinh Real.pi) := by
  rw [← Real.sinh_le_sinh, sinh_log_tan_add_sec h1 h2,
    ← Real.arctan_strictMono.le_iff_le, Real.arctan_tan h1 h2]

theorem log_tan_add_sec_arctan_sinh (t : ℝ) :
    Real.log (Real.tan (Real.arctan (Real.sinh t))
      + 1 / Real.cos (Real.arctan (Real.sinh t))) = t := by
  have hsqrt : √(1 + Real.sinh t ^ 2) = Real.cosh t := by
    rw [← Real.cosh_sq', Real.sqrt_sq (Real.cosh_pos t).le]
  rw [Real.tan_arctan, Real.cos_arctan, hsqrt]
  have h : Real.sinh t + 1 / (1 / Real.cosh t) = Real.exp t := by
    have h1 : (1 : ℝ) / (1 / Real.cosh t) = Real.cosh t := by
      norm_num
    rw [h1, Real.sinh_add_cosh]
  rw [h, Real.log_exp]

theorem lat_rad_bounds {lat : ℝ} (hlat : |lat| < 90) :
    -(Real.pi / 2) < lat * Real.pi / 180 ∧ lat * Real.pi / 180 < Real.pi / 2 := by
  have hp := Real.pi_pos
  rw [abs_lt] at hlat
  constructor
  · nlinarith [hlat.1]
  · nlinarith [hlat.2]

theorem tile_y_real_eq (lat : ℝ) (zoom : Int) :
    tile_y_real lat zoom
      = (1 - Real.log (Real.tan (lat * Real.pi / 180) + 1 / Real.cos (lat * Real.pi / 180))
          / Real.pi) / 2 * (2 : ℝ) ^ zoom := by
  unfold tile_y_real M_PI
  norm_num

theorem tile_y_real_nonneg_iff {lat : ℝ} (hlat : |lat| < 90) (zoom : Int) :
    0 ≤ tile_y_real lat zoom
      ↔ lat ≤ Real.arctan (Real.sinh Real.pi) * 180 / Real.pi := by
  obtain ⟨h1, h2⟩ := lat_rad_bounds hlat
  have hp := Real.pi_pos
  have hn : (0 : ℝ) < (2 : ℝ) ^ zoom := zpow_pos (by norm_num) zoom
  have hiff := log_tan_add_sec_le_pi_iff h1 h2
  rw [tile_y_real_eq]
  have e1 : lat ≤ Real.arctan (Real.sinh Real.pi) * 180 / Real.pi
      ↔ lat * Real.pi / 180 ≤ Real.arctan (Real.sinh Real.pi) := by
    rw [le_div_iff₀ hp, div_le_iff₀ (by norm_num : (0 : ℝ) < 180)]
  rw [e1, ← hiff]
  set L := Real.log (Real.tan (lat * Real.pi / 180) + 1 / Real.cos (lat * Real.pi / 180))
  constructor
  · intro h
    have h3 : 0 ≤ (1 - L / Real.pi) / 2 := by
      by_contra hc
      push_neg at hc
      have := mul_neg_of_neg_of_pos hc hn
      linarith
    have h4 : L / Real.pi ≤ 1 := by linarith
    rwa [div_le_one hp] at h4
  · intro h
    have h4 : L / Real.pi ≤ 1 := by rwa [div_le_one hp]
    exact mul_nonneg (by linarith) hn.le

/-! ### Numeric bounds at latitude 89 -/

theorem tan_add_sec_89_bounds :
    Real.exp Real.pi < Real.tan (89 * Real.pi / 180) + 1 / Real.cos (89 * Real.pi / 180)
    ∧ Real.tan (89 * Real.pi / 180) + 1 / Real.cos (89 * Real.pi / 180)
        < Real.exp (3 * Real.pi) := by
  have hp := Real.pi_pos
  have hp3 := Real.pi_gt_three
  have hp4 := Real.pi_lt_d2
  have hφ : 89 * Real.pi / 180 = Real.pi / 2 - Real.pi / 180 := by ring
  have hx0 : 0 < Real.pi / 180 := by positivity
  have hcos : Real.cos (89 * Real.pi / 180) = Real.sin (Real.pi / 180) := by
    rw [hφ, Real.cos_pi_div_two_sub]
  have hsin1 : Real.sin (Real.pi / 180) ≤ Real.pi / 180 := Real.sin_le hx0.le
  have hsin2 : 1 / 90 ≤ Real.sin (Real.pi / 180) := by
    have h := Real.mul_le_sin hx0.le (by linarith : Real.pi / 180 ≤ Real.pi / 2)
    have e : 2 / Real.pi * (Real.pi / 180) = 1 / 90 := by
      field_simp
      ring
    rwa [e] at h
  have hc : 0 < Real.cos (89 * Real.pi / 180) := by rw [hcos]; linarith
  have hs0 : 0 ≤ Real.sin (89 * Real.pi / 180) :=
    Real.sin_nonneg_of_nonneg_of_le_pi (by positivity) (by linarith)
  have hs1 : Real.sin (89 * Real.pi / 180) ≤ 1 := Real.sin_le_one _
  rw [tan_add_sec_eq hc]
  constructor
  · have he : Real.exp Real.pi < 55 := by
      have h4 : Real.exp Real.pi < Real.exp 4 := Real.exp_lt_exp.mpr (by linarith)
      have h5 : Real.exp 4 = Real.exp 1 ^ 4 := by
        rw [← Real.exp_nat_mul]
        norm_num
      have h6 : Real.exp 1 ^ 4 < (2.7182818286 : ℝ) ^ 4 :=
        pow_lt_pow_left₀ Real.exp_one_lt_d9 (Real.exp_pos 1).le (by norm_num)
      have h7 : (2.7182818286 : ℝ) ^ 4 < 55 := by norm_num
      linarith
    rw [lt_div_iff₀ hc, hcos]
    have h8 : Real.exp Real.pi * Real.sin (Real.pi / 180) < 55 * (3.15 / 180) := by
      have : Real.sin (Real.pi / 180) ≤ 3.15 / 180 := by linarith
      have hsp : 0 < Real.sin (Real.pi / 180) := by linarith
      nlinarith [Real.exp_pos Real.pi]
    have h9 : (55 : ℝ) * (3.15 / 180) < 1 := by norm_num
    linarith
  · have he : (512 : ℝ) < Real.exp (3 * Real.pi) := by
      have h4 : Real.exp 9 < Real.exp (3 * Real.pi) := Real.exp_lt_exp.mpr (by linarith)
      have h5 : Real.exp 9 = Real.exp 1 ^ 9 := by
        rw [← Real.exp_nat_mul]
        norm_num
      have h6 : (2 : ℝ) ^ 9 < Real.exp 1 ^ 9 :=
        pow_lt_pow_left₀ (by linarith [Real.exp_one_gt_d9]) (by norm_num) (by norm_num)
      have h7 : (2 : ℝ) ^ 9 = 512 := by norm_num
      linarith
    rw [div_lt_iff₀ hc, hcos]
    nlinarith [Real.exp_pos (3 * Real.pi)]

theorem tile_y_real_89_bounds :
    -1 < (1 - Real.log (Real.tan (89 * Real.pi / 180) + 1 / Real.cos (89 * Real.pi / 180))
          / Real.pi) / 2 * (2 : ℝ) ^ (0 : Int)
    ∧ (1 - Real.log (Real.tan (89 * Real.pi / 180) + 1 / Real.cos (89 * Real.pi / 180))
          / Real.pi) / 2 * (2 : ℝ) ^ (0 : Int) < 0 := by
  obtain ⟨hlo, hhi⟩ := tan_add_sec_89_bounds
  have hp := Real.pi_pos
  have hg : 0 < Real.tan (89 * Real.pi / 180) + 1 / Real.cos (89 * Real.pi / 180) :=
    lt_trans (Real.exp_pos _) hlo
  have h1 := (Real.lt_log_iff_exp_lt hg).mpr hlo
  have h2 := (Real.log_lt_iff_lt_exp hg).mpr hhi
  set L := Real.log (Real.tan (89 * Real.pi / 180) + 1 / Real.cos (89 * Real.pi / 180))
  have h3 : 1 < L / Real.pi := by rwa [lt_div_iff₀ hp, one_mul]
  have h4 : L / Real.pi < 3 := by rwa [div_lt_iff₀ hp]
  rw [zpow_zero]
  constructor <;> linarith

/-! ### Tile centres -/

theorem c_trunc_add_half {k : Int} (hk : 0 ≤ k) : c_trunc ((k : ℝ) + 1 / 2) = k := by
  have h0 : (0 : ℝ) ≤ (k : ℝ) := by exact_mod_cast hk
  rw [c_trunc_of_nonneg (by linarith), Int.floor_eq_iff]
  constructor <;> linarith

theorem tile_x_real_centre (c Z : Int) :
    tile_x_real (((c : ℝ) + 1 / 2) / (2 : ℝ) ^ Z * 360 - 180) Z = (c : ℝ) + 1 / 2 := by
  have hn : (0 : ℝ) < (2 : ℝ) ^ Z := zpow_pos (by norm_num) Z
  unfold tile_x_real
  norm_num
  field_simp
  ring

theorem tile_y_real_centre (r Z : Int) :
    tile_y_real
      (Real.arctan (Real.sinh (Real.pi * (1 - 2 * ((r : ℝ) + 1 / 2) / (2 : ℝ) ^ Z)))
        * 180 / Real.pi) Z = (r : ℝ) + 1 / 2 := by
  have hn : (0 : ℝ) < (2 : ℝ) ^ Z := zpow_pos (by norm_num) Z
  have hp := Real.pi_pos
  have hrad : Real.arctan (Real.sinh (Real.pi * (1 - 2 * ((r : ℝ) + 1 / 2) / (2 : ℝ) ^ Z)))
      * 180 / Real.pi * Real.pi / 180
      = Real.arctan (Real.sinh (Real.pi * (1 - 2 * ((r : ℝ) + 1 / 2) / (2 : ℝ) ^ Z))) := by
    field_simp
  rw [tile_y_real_eq, hrad, log_tan_add_sec_arctan_sinh]
  field_simp
  ring

/-! ### The default position -/

theorem tile_y_real_default_bounds :
    0 ≤ tile_y_real 46.8797 10 ∧ tile_y_real 46.8797 10 ≤ 512 := by
  have hp := Real.pi_pos
  have hφ0 : (0 : ℝ) ≤ 46.8797 * Real.pi / 180 := by positivity
  have hφ1 : (46.8797 : ℝ) * Real.pi / 180 ≤ Real.pi / 3 := by nlinarith
  have hcos : 1 / 2 ≤ Real.cos (46.8797 * Real.pi / 180) := by
    have h := Real.cos_le_cos_of_nonneg_of_le_pi hφ0 (by linarith) hφ1
    rwa [Real.cos_pi_div_three] at h
  have hc : 0 < Real.cos (46.8797 * Real.pi / 180) := by linarith
  have hs0 : 0 ≤ Real.sin (46.8797 * Real.pi / 180) :=
    Real.sin_nonneg_of_nonneg_of_le_pi hφ0 (by linarith)
  have hs1 : Real.sin (46.8797 * Real.pi / 180) ≤ 1 := Real.sin_le_one _
  have hc1 : Real.cos (46.8797 * Real.pi / 180) ≤ 1 := Real.cos_le_one _
  have hg1 : 1 ≤ Real.tan (46.8797 * Real.pi / 180)
      + 1 / Real.cos (46.8797 * Real.pi / 180) := by
    rw [tan_add_sec_eq hc, le_div_iff₀ hc]
    linarith
  have hg4 : Real.tan (46.8797 * Real.pi / 180)
      + 1 / Real.cos (46.8797 * Real.pi / 180) ≤ 4 := by
    rw [tan_add_sec_eq hc, div_le_iff₀ hc]
    linarith
  have hL0 := Real.log_nonneg hg1
  have hL3 : Real.log (Real.tan (46.8797 * Real.pi / 180)
      + 1 / Real.cos (46.8797 * Real.pi / 180)) ≤ 3 := by
    have h := Real.log_le_sub_one_of_pos (lt_of_lt_of_le one_pos hg1)
    linarith
  rw [tile_y_real_eq]
  set L := Real.log (Real.tan (46.8797 * Real.pi / 180)
      + 1 / Real.cos (46.8797 * Real.pi / 180))
  have hq0 : 0 ≤ L / Real.pi := div_nonneg hL0 hp.le
  have hq1 : L / Real.pi ≤ 1 := by
    rw [div_le_one hp]
    linarith [Real.pi_gt_three]
  have hpow : (2 : ℝ) ^ (10 : Int) = 1024 := by norm_num
  rw [hpow]
  constructor <;> linarith

/-! ### Row inversion and panning -/

theorem shl_one_eq {zoom : Int} (hz : 0 ≤ zoom ∧ zoom ≤ 18) :
    shl_one zoom = 2 ^ zoom.toNat ∧ (1 : Int) ≤ 2 ^ zoom.toNat
      ∧ (2 : Int) ^ zoom.toNat ≤ 262144 := by
  have hn : zoom.toNat ≤ 18 := by omega
  have h1 : (1 : Int) ≤ 2 ^ zoom.toNat := one_le_pow₀ (by norm_num)
  have h2 : (2 : Int) ^ zoom.toNat ≤ 2 ^ 18 := pow_le_pow_right₀ (by norm_num) hn
  have h3 : (2 : Int) ^ 18 = 262144 := by norm_num
  rw [h3] at h2
  refine ⟨?_, h1, h2⟩
  unfold shl_one wrap32
  omega

theorem tms_row_eq {zoom tile_y : Int} (hz : 0 ≤ zoom ∧ zoom ≤ 18) :
    tms_row zoom tile_y = wrap32 ((2 ^ zoom.toNat - 1) - tile_y) := by
  obtain ⟨he, h1, h2⟩ := shl_one_eq hz
  unfold tms_row
  simp only []
  rw [he]
  congr 1
  unfold wrap32
  omega

theorem meters_per_pixel_eq {viewer : MapViewer} (hz : zoom_inv viewer) :
    meters_per_pixel viewer
      = 40075016.686 * Real.cos (viewer.center_lat * Real.pi / 180)
          / (2 : ℝ) ^ (viewer.zoom_level + 8) := by
  have hw : wrap32 (viewer.zoom_level + 8) = viewer.zoom_level + 8 := by
    unfold zoom_inv at hz
    unfold wrap32
    omega
  unfold meters_per_pixel M_PI
  rw [hw]
  norm_num

theorem requested_tiles_append (l₁ l₂ : List RenderEvent) :
    requested_tiles (l₁ ++ l₂) = requested_tiles l₁ ++ requested_tiles l₂ := by
  induction l₁ with
  | nil => rfl
  | cons e rest ih =>
    cases e <;> simp [requested_tiles, ih]

theorem requested_tiles_flatMap {α : Type} (l : List α) (f : α → List RenderEvent) :
    requested_tiles (l.flatMap f) = l.flatMap (fun a => requested_tiles (f a)) := by
  induction l with
  | nil => rfl
  | cons a rest ih =>
    simp [List.flatMap_cons, requested_tiles_append, ih]

theorem requested_tiles_render_cell (env : Env) (viewer : MapViewer)
    (sx sy sw sh ty tx : Int) :
    requested_tiles (render_cell env viewer sx sy sw sh ty tx)
      = [(viewer.zoom_level, wrap32 (sx + tx), wrap32 (sy + ty))] := by
  simp only [render_cell]
  split <;> simp [requested_tiles]

theorem flatMap_singleton_eq_map {α β : Type} (l : List α) (f : α → β) :
    l.flatMap (fun a => [f a]) = l.map f := by
  induction l with
  | nil => rfl
  | cons a rest ih => simp [List.flatMap_cons, ih]

theorem requested_tiles_render_pass (env : Env) (viewer : MapViewer)
    (cx cy sw sh : Int) :
    requested_tiles (render_pass env viewer cx cy sw sh)
      = (List.range (grid_tiles sh).toNat).flatMap (fun (ty : Nat) =>
          (List.range (grid_tiles sw).toNat).map (fun (tx : Nat) =>
            (viewer.zoom_level,
             wrap32 (start_tile cx (grid_tiles sw) + (tx : Int)),
             wrap32 (start_tile cy (grid_tiles sh) + (ty : Int))))) := by
  unfold render_pass
  simp only [requested_tiles_append, requested_tiles_flatMap, requested_tiles_render_cell]
  simp [requested_tiles, flatMap_singleton_eq_map]

theorem length_flatMap_map {β : Type} (l : List Nat) (n : Nat) (f : Nat → Nat → β) :
    (l.flatMap (fun i => (List.range n).map (fun j => f i j))).length
      = l.length * n := by
  induction l with
  | nil => simp
  | cons a rest ih =>
    simp only [List.flatMap_cons, List.length_append, List.length_map, List.length_range,
      ih, List.length_cons]
    ring

theorem length_flatMap_map_range {β : Type} (m n : Nat) (f : Nat → Nat → β) :
    ((List.range m).flatMap (fun i => (List.range n).map (fun j => f i j))).length
      = m * n := by
  rw [length_flatMap_map, List.length_range]

theorem length_requested_tiles_render_pass (env : Env) (viewer : MapViewer)
    (cx cy sw sh : Int) :
    (requested_tiles (render_pass env viewer cx cy sw sh)).length
      = (grid_tiles sh).toNat * (grid_tiles sw).toNat := by
  rw [requested_tiles_render_pass, length_flatMap_map_range]

theorem mem_render_cell_texture (env : Env) (viewer : MapViewer)
    (sx sy sw sh ty tx : Int) (tile : Texture) (x y w h : Int) :
    RenderEvent.render_texture tile x y w h ∈ render_cell env viewer sx sy sw sh ty tx
      ↔ map_viewer_get_tile env viewer viewer.zoom_level (wrap32 (sx + tx))
            (wrap32 (sy + ty)) = some tile
          ∧ x = dest_offset sw tx ∧ y = dest_offset sh ty
          ∧ w = TILE_SIZE ∧ h = TILE_SIZE := by
  simp only [render_cell]
  cases hg : map_viewer_get_tile env viewer viewer.zoom_level (wrap32 (sx + tx))
      (wrap32 (sy + ty)) with
  | none => simp
  | some t =>
    simp only [List.mem_cons, List.mem_singleton, RenderEvent.render_texture.injEq,
      Option.some.injEq, reduceCtorEq, false_or, List.not_mem_nil, or_false]
    constructor
    · rintro ⟨h1, h2, h3, h4, h5⟩
      exact ⟨h1.symm, h2, h3, h4, h5⟩
    · rintro ⟨h1, h2, h3, h4, h5⟩
      exact ⟨h1.symm, h2, h3, h4, h5⟩

theorem mem_render_pass_texture (env : Env) (viewer : MapViewer)
    (cx cy sw sh : Int) (tile : Texture) (x y w h : Int) :
    RenderEvent.render_texture tile x y w h ∈ render_pass env viewer cx cy sw sh
      ↔ ∃ ty tx : Nat, ty < (grid_tiles sh).toNat ∧ tx < (grid_tiles sw).toNat
          ∧ map_viewer_get_tile env viewer viewer.zoom_level
              (wrap32 (start_tile cx (grid_tiles sw) + (tx : Int)))
              (wrap32 (start_tile cy (grid_tiles sh) + (ty : Int))) = some tile
          ∧ x = dest_offset sw tx ∧ y = dest_offset sh ty
          ∧ w = TILE_SIZE ∧ h = TILE_SIZE := by
  unfold render_pass
  simp only [List.mem_append, List.mem_flatMap, List.mem_range, mem_render_cell_texture,
    List.mem_cons, List.mem_singleton, reduceCtorEq, List.not_mem_nil, or_false]
  constructor
  · rintro ⟨ty, hty, tx, htx, hrest⟩
    exact ⟨ty, tx, hty, htx, hrest⟩
  · rintro ⟨ty, tx, hty, htx, hrest⟩
    exact ⟨ty, hty, tx, htx, hrest⟩

theorem grid_tiles_eq {screen : Int} (h0 : 0 ≤ screen) (hi : is_int screen) :
    grid_tiles screen = screen / 256 + 2 := by
  unfold grid_tiles TILE_SIZE
  rw [Int.tdiv_eq_ediv h0 (by norm_num)]
  unfold is_int INT_MIN INT_MAX at hi
  unfold wrap32
  omega

theorem map_viewer_render_active {env : Env} {viewer : MapViewer} {cx cy : Int}
    (hact : viewer.active = true)
    (hproj : latlon_to_tile viewer.center_lat viewer.center_lon viewer.zoom_level
      = some (cx, cy)) (sw sh : Int) :
    map_viewer_render env viewer sw sh = some (render_pass env viewer cx cy sw sh) := by
  unfold map_viewer_render
  rw [hact, hproj]
  simp

theorem default_projection :
    ∃ tile_y : Int, latlon_to_tile 46.8797 (-84.3397) 10 = some (272, tile_y) := by
  have hv : tile_x_real (-84.3397) 10 = ((-84.3397 : ℝ) + 180) / 360 * 1024 := by
    unfold tile_x_real
    norm_num
  have hf : ⌊((-84.3397 : ℝ) + 180) / 360 * 1024⌋ = 272 := by
    rw [Int.floor_eq_iff]
    norm_num
  have hc : c_trunc (((-84.3397 : ℝ) + 180) / 360 * 1024) = 272 := by
    rw [c_trunc_of_nonneg (by norm_num), hf]
  have hx : latlon_to_tile_x (-84.3397) 10 = some 272 := by
    unfold latlon_to_tile_x
    rw [hv, double_to_int_of_is_int (by rw [hc]; decide), hc]
  obtain ⟨hlo, hhi⟩ := tile_y_real_default_bounds
  have h0 : (0 : Int) ≤ ⌊tile_y_real 46.8797 10⌋ := Int.floor_nonneg.mpr hlo
  have h1 : ⌊tile_y_real 46.8797 10⌋ ≤ 512 := by
    have h2 : ((⌊tile_y_real 46.8797 10⌋ : Int) : ℝ) ≤ ((512 : Int) : ℝ) := by
      have := Int.floor_le (tile_y_real 46.8797 10)
      push_cast
      linarith
    exact_mod_cast h2
  have hy : is_int (c_trunc (tile_y_real 46.8797 10)) := by
    rw [c_trunc_of_nonneg hlo]
    unfold is_int INT_MIN INT_MAX
    constructor <;> omega
  refine ⟨c_trunc (tile_y_real 46.8797 10), ?_⟩
  unfold latlon_to_tile
  rw [hx]
  unfold latlon_to_tile_y
  rw [double_to_int_of_is_int hy]

theorem floor_div_256 (n : Int) : ⌊(n : ℚ) / 256⌋ = n / 256 := by
  rw [Int.floor_eq_iff]
  have h1 : ((n / 256 : Int) : ℚ) * 256 ≤ (n : ℚ) := by
    have : n / 256 * 256 ≤ n := by omega
    exact_mod_cast this
  have h2 : (n : ℚ) < ((n / 256 : Int) : ℚ) * 256 + 256 := by
    have : n < n / 256 * 256 + 256 := by omega
    exact_mod_cast this
  constructor
  · rw [le_div_iff₀ (by norm_num)]
    exact h1
  · rw [div_lt_iff₀ (by norm_num)]
    linarith

theorem ceil_div_256 (n : Int) : ⌈(n : ℚ) / 256⌉ = (n + 255) / 256 := by
  rw [Int.ceil_eq_iff]
  have h1 : (((n + 255) / 256 : Int) : ℚ) * 256 - 256 < (n : ℚ) := by
    have : (n + 255) / 256 * 256 - 256 < n := by omega
    exact_mod_cast this
  have h2 : (n : ℚ) ≤ (((n + 255) / 256 : Int) : ℚ) * 256 := by
    have : n ≤ (n + 255) / 256 * 256 := by omega
    exact_mod_cast this
  constructor
  · rw [lt_div_iff₀ (by norm_num)]
    linarith
  · rw [div_le_iff₀ (by norm_num)]
    exact h2

theorem grid_tiles_800 : grid_tiles 800 = 5 := by decide

theorem grid_tiles_480 : grid_tiles 480 = 3 := by decide

theorem dest_offset_eq {screen t : Int} (h0 : 0 ≤ screen) (hi : is_int screen)
    (ht0 : 0 ≤ t) (ht : t ≤ 4194304) :
    dest_offset screen t = t * 256 - (screen / 2 - 128) := by
  have h128 : (256 : Int).tdiv 2 = 128 := by decide
  unfold dest_offset TILE_SIZE
  rw [Int.tdiv_eq_ediv h0 (by norm_num), h128]
  unfold is_int INT_MIN INT_MAX at hi
  unfold wrap32
  omega

theorem get_tile_bmp_archive (viewer : MapViewer) (zoom tile_x tile_y : Int) :
    map_viewer_get_tile bmp_archive viewer zoom tile_x tile_y
      = some { renderer := viewer.renderer, surface := Surface.loaded [66, 77] } := by
  simp [map_viewer_get_tile, decode_row, bmp_archive, SQLITE_OK]

theorem get_tile_empty_archive (viewer : MapViewer) (zoom tile_x tile_y : Int) :
    map_viewer_get_tile empty_archive viewer zoom tile_x tile_y = none := by
  simp [map_viewer_get_tile, decode_row, empty_archive, SQLITE_OK]

theorem get_tile_of_prepare_fails {env : Env} {viewer : MapViewer}
    (h : env.prepare_v2 viewer.db ≠ SQLITE_OK) (zoom tile_x tile_y : Int) :
    map_viewer_get_tile env viewer zoom tile_x tile_y = none := by
  unfold map_viewer_get_tile
  rw [if_pos h]

theorem get_tile_of_no_row {env : Env} {viewer : MapViewer} {zoom tile_x tile_y : Int}
    (h : env.step_row viewer.db (lookup_key zoom tile_x tile_y) = none) :
    map_viewer_get_tile env viewer zoom tile_x tile_y = none := by
  unfold map_viewer_get_tile
  split_ifs
  · rfl
  · rw [h]
    rfl

/-! ### Grid geometry -/

theorem tdiv_of_nonpos {a b : Int} (ha : a ≤ 0) (hb : 0 ≤ b) :
    a.tdiv b = -((-a) / b) := by
  have h := Int.neg_tdiv (-a) b
  rw [neg_neg] at h
  rw [h, Int.tdiv_eq_ediv (by omega) hb]

theorem grid_tiles_le {screen : Int} (hi : is_int screen) :
    grid_tiles screen ≤ 8388609 ∧ -8388606 ≤ grid_tiles screen := by
  unfold is_int INT_MIN INT_MAX at hi
  unfold grid_tiles TILE_SIZE
  rcases le_total 0 screen with h | h
  · rw [Int.tdiv_eq_ediv h (by norm_num)]
    unfold wrap32
    omega
  · rw [tdiv_of_nonpos h (by norm_num)]
    unfold wrap32
    omega

theorem dest_offset_exact {screen t : Int} (hi : is_int screen) (ht0 : 0 ≤ t)
    (ht : t < grid_tiles screen) :
    dest_offset screen t = t * 256 - (screen.tdiv 2 - 128) := by
  have h128 : (256 : Int).tdiv 2 = 128 := by decide
  unfold is_int INT_MIN INT_MAX at hi
  unfold grid_tiles TILE_SIZE at ht
  unfold dest_offset TILE_SIZE
  rw [h128]
  rcases le_total 0 screen with h | h
  · rw [Int.tdiv_eq_ediv h (by norm_num)] at ht ⊢
    unfold wrap32 at ht ⊢
    omega
  · rw [tdiv_of_nonpos h (by norm_num)] at ht ⊢
    unfold wrap32 at ht ⊢
    omega

theorem wrap32_add_inj {s a b : Int} (ha0 : 0 ≤ a) (ha : a < 4294967296)
    (hb0 : 0 ≤ b) (hb : b < 4294967296) (h : wrap32 (s + a) = wrap32 (s + b)) :
    a = b := by
  unfold wrap32 at h
  omega

theorem wrap32_sub_add {c h : Int} (hc : is_int c) : wrap32 (wrap32 (c - h) + h) = c := by
  unfold is_int INT_MIN INT_MAX at hc
  unfold wrap32
  omega

theorem mem_grid_requests (z sx sy X Y Z : Int) (m n : Nat) :
    (Z, X, Y) ∈ (List.range m).flatMap (fun (ty : Nat) =>
        (List.range n).map (fun (tx : Nat) =>
          (z, wrap32 (sx + (tx : Int)), wrap32 (sy + (ty : Int)))))
      ↔ ∃ ty tx : Nat, ty < m ∧ tx < n ∧ Z = z ∧ X = wrap32 (sx + (tx : Int))
          ∧ Y = wrap32 (sy + (ty : Int)) := by
  simp only [List.mem_flatMap, List.mem_map, List.mem_range, Prod.mk.injEq]
  constructor
  · rintro ⟨ty, hty, tx, htx, h1, h2, h3⟩
    exact ⟨ty, tx, hty, htx, h1.symm, h2.symm, h3.symm⟩
  · rintro ⟨ty, tx, hty, htx, h1, h2, h3⟩
    exact ⟨ty, hty, tx, htx, h1.symm, h2.symm, h3.symm⟩

theorem nodup_grid_requests (z sx sy : Int) (m n : Nat) (hm : m ≤ 4294967296)
    (hn : n ≤ 4294967296) :
    ((List.range m).flatMap (fun (ty : Nat) =>
        (List.range n).map (fun (tx : Nat) =>
          (z, wrap32 (sx + (tx : Int)), wrap32 (sy + (ty : Int)))))).Nodup := by
  rw [List.nodup_flatMap]
  constructor
  · intro ty _
    apply List.Nodup.map_on _ (List.nodup_range n)
    intro a ha b hb hab
    rw [List.mem_range] at ha hb
    simp only [Prod.mk.injEq, true_and] at hab
    have := wrap32_add_inj (by omega) (by omega) (by omega) (by omega) hab.1
    omega
  · apply List.Nodup.pairwise_of_forall_ne (List.nodup_range m)
    intro a ha b hb hne
    rw [List.mem_range] at ha hb
    intro e hea heb
    simp only [List.mem_map, List.mem_range] at hea heb
    obtain ⟨ta, _, rfl⟩ := hea
    obtain ⟨tb, _, hb2⟩ := heb
    simp only [Prod.mk.injEq, true_and] at hb2
    have := wrap32_add_inj (by omega) (by omega) (by omega) (by omega) hb2.2
    omega

theorem count_eq_one_of_nodup_mem {α : Type} [BEq α] [LawfulBEq α] {a : α} {l : List α}
    (hn : l.Nodup) (hm : a ∈ l) : List.count a l = 1 := by
  induction l with
  | nil => cases hm
  | cons b t ih =>
    rw [List.nodup_cons] at hn
    rw [List.count_cons]
    by_cases hab : b = a
    · subst hab
      have h0 : List.count b t = 0 := List.count_eq_zero.mpr hn.1
      simp [h0]
    · have hmt : a ∈ t := by
        rcases List.mem_cons.mp hm with h | h
        · exact absurd h.symm hab
        · exact h
      have hne : (b == a) = false := by
        simpa using hab
      simp [ih hn.2 hmt, hne]

theorem latlon_to_tile_is_int {lat lon : ℝ} {zoom cx cy : Int}
    (h : latlon_to_tile lat lon zoom = some (cx, cy)) : is_int cx ∧ is_int cy := by
  unfold latlon_to_tile latlon_to_tile_x latlon_to_tile_y double_to_int at h
  split_ifs at h with h1 h2
  simp only [Option.some.injEq, Prod.mk.injEq] at h
  rw [← h.1, ← h.2]
  exact ⟨h1, h2⟩

theorem grid_tiles_half {screen : Int} (h0 : 0 ≤ screen) (hi : is_int screen) :
    0 ≤ (grid_tiles screen).tdiv 2 ∧ (grid_tiles screen).tdiv 2 < grid_tiles screen
      ∧ (grid_tiles screen).tdiv 2 = (grid_tiles screen) / 2 := by
  have he := grid_tiles_eq h0 hi
  have hpos : 0 ≤ grid_tiles screen := by rw [he]; omega
  rw [Int.tdiv_eq_ediv hpos (by norm_num)]
  omega

theorem dest_offset_pos {screen t : Int} (h0 : 0 ≤ screen) (hi : is_int screen)
    (ht0 : 0 ≤ t) (ht : t < grid_tiles screen) :
    dest_offset screen t = t * 256 - (screen / 2 - 128) := by
  rw [dest_offset_exact hi ht0 ht, Int.tdiv_eq_ediv h0 (by norm_num)]

/-- One axis of the screen, `0 .. screen - 1`, lies inside the union of the cell
intervals `[dest_offset screen t, dest_offset screen t + 256)`. -/
theorem axis_covered_iff {screen : Int} (h0 : 0 < screen) (hi : is_int screen) :
    (∀ p : Int, 0 ≤ p → p < screen →
        ∃ t : Nat, (t : Int) < grid_tiles screen ∧ dest_offset screen t ≤ p
          ∧ p < dest_offset screen t + 256)
      ↔ (256 ≤ screen ∧ screen + screen / 2 ≤ 256 * (screen / 256) + 640) := by
  have hg := grid_tiles_eq h0.le hi
  constructor
  · intro h
    obtain ⟨t0, ht0, hlo0, _⟩ := h 0 (le_refl 0) h0
    obtain ⟨t1, ht1, _, hhi1⟩ := h (screen - 1) (by omega) (by omega)
    rw [dest_offset_pos h0.le hi (by omega) ht0] at hlo0
    rw [dest_offset_pos h0.le hi (by omega) ht1] at hhi1
    rw [hg] at ht0 ht1
    omega
  · rintro ⟨h256, hright⟩ p hp0 hp1
    have hidx : 0 ≤ (p + (screen / 2 - 128)) / 256 := by omega
    have hlt : (((p + (screen / 2 - 128)) / 256).toNat : Int) < grid_tiles screen := by
      rw [Int.toNat_of_nonneg hidx, hg]
      omega
    refine ⟨((p + (screen / 2 - 128)) / 256).toNat, hlt, ?_, ?_⟩
    · rw [dest_offset_pos h0.le hi (by omega) hlt, Int.toNat_of_nonneg hidx]
      omega
    · rw [dest_offset_pos h0.le hi (by omega) hlt, Int.toNat_of_nonneg hidx]
      omega

/-! ### Panning by one tile width -/

theorem c_trunc_step {x d : ℝ} (hd0 : 0 ≤ d) (hd1 : d < 1) :
    c_trunc x ≤ c_trunc (x + d) ∧ c_trunc (x + d) ≤ c_trunc x + 1 := by
  by_cases hx : 0 ≤ x
  · have hxd : 0 ≤ x + d := by linarith
    rw [c_trunc_of_nonneg hx, c_trunc_of_nonneg hxd]
    have a1 := Int.floor_le x
    have a2 := Int.lt_floor_add_one x
    have b1 := Int.floor_le (x + d)
    have b2 := Int.lt_floor_add_one (x + d)
    constructor
    · have h : ((⌊x⌋ : Int) : ℝ) < ((⌊x + d⌋ + 1 : Int) : ℝ) := by
        push_cast
        linarith
      have := Int.cast_lt.mp h
      omega
    · have h : ((⌊x + d⌋ : Int) : ℝ) < ((⌊x⌋ + 2 : Int) : ℝ) := by
        push_cast
        linarith
      have := Int.cast_lt.mp h
      omega
  · push_neg at hx
    by_cases hxd : 0 ≤ x + d
    · rw [c_trunc_of_neg hx, c_trunc_of_nonneg hxd]
      have hc : ⌈x⌉ = 0 := by
        rw [Int.ceil_eq_iff]
        constructor
        · push_cast
          linarith
        · push_cast
          linarith
      have hf : ⌊x + d⌋ = 0 := by
        rw [Int.floor_eq_iff]
        constructor
        · push_cast
          linarith
        · push_cast
          linarith
      rw [hc, hf]
      omega
    · push_neg at hxd
      rw [c_trunc_of_neg hx, c_trunc_of_neg hxd]
      have a1 := Int.le_ceil x
      have a2 := Int.ceil_lt_add_one x
      have b1 := Int.le_ceil (x + d)
      have b2 := Int.ceil_lt_add_one (x + d)
      constructor
      · have h : ((⌈x⌉ : Int) : ℝ) < ((⌈x + d⌉ + 1 : Int) : ℝ) := by
          push_cast
          linarith
        have := Int.cast_lt.mp h
        omega
      · have h : ((⌈x + d⌉ : Int) : ℝ) < ((⌈x⌉ + 2 : Int) : ℝ) := by
          push_cast
          linarith
        have := Int.cast_lt.mp h
        omega

theorem pan_256_center_lon {viewer : MapViewer} (hz : zoom_inv viewer) :
    (map_viewer_pan viewer 256 0).center_lon
      = viewer.center_lon
        + 40075016.686 / 111320 * Real.cos (viewer.center_lat * Real.pi / 180)
            / (2 : ℝ) ^ viewer.zoom_level := by
  have hn : (0 : ℝ) < (2 : ℝ) ^ viewer.zoom_level := zpow_pos (by norm_num) _
  have hpow : (2 : ℝ) ^ (viewer.zoom_level + 8) = (2 : ℝ) ^ viewer.zoom_level * 256 := by
    rw [zpow_add₀ (by norm_num)]
    norm_num
  unfold map_viewer_pan
  simp only []
  rw [meters_per_pixel_eq hz, hpow]
  push_cast
  field_simp
  ring

theorem tile_x_real_add (lon d : ℝ) (zoom : Int) :
    tile_x_real (lon + d) zoom = tile_x_real lon zoom + d / 360 * (2 : ℝ) ^ zoom := by
  unfold tile_x_real
  norm_num
  ring

theorem tile_x_real_pan_256 {viewer : MapViewer} (hz : zoom_inv viewer) :
    tile_x_real (map_viewer_pan viewer 256 0).center_lon viewer.zoom_level
      = tile_x_real viewer.center_lon viewer.zoom_level
        + 40075016.686 / (111320 * 360)
            * Real.cos (viewer.center_lat * Real.pi / 180) := by
  have hn : (0 : ℝ) < (2 : ℝ) ^ viewer.zoom_level := zpow_pos (by norm_num) _
  rw [pan_256_center_lon hz, tile_x_real_add]
  field_simp
  ring

theorem pan_256_increment {lat : ℝ} (hlat : |lat| < 90) :
    0 < 40075016.686 / (111320 * 360) * Real.cos (lat * Real.pi / 180)
    ∧ 40075016.686 / (111320 * 360) * Real.cos (lat * Real.pi / 180) < 1 := by
  obtain ⟨h1, h2⟩ := lat_rad_bounds hlat
  have hc := cos_pos_of_lt h1 h2
  have hc1 := Real.cos_le_one (lat * Real.pi / 180)
  have hk0 : (0 : ℝ) < 40075016.686 / (111320 * 360) := by norm_num
  have hk1 : (40075016.686 : ℝ) / (111320 * 360) < 1 := by norm_num
  constructor
  · exact mul_pos hk0 hc
  · nlinarith

theorem cos_default_lat_bounds :
    0 < Real.cos (46.8797 * Real.pi / 180)
    ∧ Real.cos (46.8797 * Real.pi / 180) ≤ 3 / 4 := by
  have hp := Real.pi_pos
  have h1 : Real.pi / 4 ≤ 46.8797 * Real.pi / 180 := by nlinarith
  have h2 : (46.8797 : ℝ) * Real.pi / 180 < Real.pi / 2 := by nlinarith
  have hc := Real.cos_le_cos_of_nonneg_of_le_pi (by positivity) (by linarith) h1
  rw [Real.cos_pi_div_four] at hc
  have hs : √2 ≤ 3 / 2 := by
    rw [Real.sqrt_le_iff]
    constructor <;> norm_num
  constructor
  · exact cos_pos_of_lt (by linarith) h2
  · linarith

/-! ### The application state machine -/

theorem zoom_active (viewer : MapViewer) (delta : Int) :
    (map_viewer_zoom viewer delta).active = viewer.active := by
  unfold map_viewer_zoom
  simp only []
  split_ifs <;> simp

theorem handle_key_down_inv (ctx : AppContext) (key : Key) (r_held : Bool)
    (h : ctx.show_map = ctx.map_viewer.active) :
    (handle_key_down ctx key r_held).show_map
      = (handle_key_down ctx key r_held).map_viewer.active := by
  cases hs : ctx.show_map <;> cases key <;> cases r_held <;>
    simp [handle_key_down, map_viewer_toggle, map_viewer_pan, zoom_active, hs, ← h]

theorem handle_event_inv (ctx : AppContext) (event : Event)
    (h : ctx.show_map = ctx.map_viewer.active) :
    (handle_event ctx event).show_map = (handle_event ctx event).map_viewer.active := by
  cases event with
  | SDL_EVENT_QUIT => exact h
  | SDL_EVENT_KEY_DOWN key r_held => exact handle_key_down_inv ctx key r_held h
  | other => exact h

theorem foldl_handle_event_inv (events : List Event) :
    ∀ ctx : AppContext, ctx.show_map = ctx.map_viewer.active →
      (events.foldl handle_event ctx).show_map
        = (events.foldl handle_event ctx).map_viewer.active := by
  induction events with
  | nil => intro ctx h; exact h
  | cons event rest ih =>
    intro ctx h
    exact ih (handle_event ctx event) (handle_event_inv ctx event h)

theorem handle_events_inv (ctx : AppContext) (events : List Event) (keys_r keys_up : Bool)
    (h : ctx.show_map = ctx.map_viewer.active) :
    (handle_events ctx events keys_r keys_up).show_map
      = (handle_events ctx events keys_r keys_up).map_viewer.active := by
  have h1 := foldl_handle_event_inv events ctx h
  unfold handle_events
  simp only []
  split_ifs <;> exact h1

theorem update_dashboard_inv (ctx : AppContext) (boot_elapsed : Bool)
    (h : ctx.show_map = ctx.map_viewer.active) :
    (update_dashboard ctx boot_elapsed).show_map
      = (update_dashboard ctx boot_elapsed).map_viewer.active := by
  unfold update_dashboard
  split_ifs <;> exact h

theorem run_frames_inv (frames : List FrameInput) :
    ∀ ctx : AppContext, ctx.show_map = ctx.map_viewer.active →
      (run_frames ctx frames).show_map = (run_frames ctx frames).map_viewer.active := by
  induction frames with
  | nil => intro ctx h; exact h
  | cons input rest ih =>
    intro ctx h
    unfold run_frames
    split_ifs
    · exact ih (frame ctx input)
        (update_dashboard_inv _ _ (handle_events_inv ctx _ _ _ h))
    · exact h

theorem app_start_inv (sqlite3_open : String → Int × Option Nat) (renderer : Nat) :
    (app_start sqlite3_open renderer).2.show_map
      = (app_start sqlite3_open renderer).2.map_viewer.active := by
  unfold app_start map_viewer_init
  simp only []
  split_ifs <;> rfl

theorem handle_key_down_hidden (ctx : AppContext) (key : Key) (r_held : Bool)
    (hs : ctx.show_map = false) (hk : key ≠ Key.SDLK_TAB) :
    (handle_key_down ctx key r_held).map_viewer = ctx.map_viewer := by
  cases key <;> first
    | exact absurd rfl hk
    | simp [handle_key_down, hs]

/-! ### Binary64 rounding -/

theorem tms_row_exact {zoom tile_y : Int} (hz : 0 ≤ zoom ∧ zoom ≤ 30)
    (hrow : is_int ((2 ^ zoom.toNat - 1) - tile_y)) :
    tms_row zoom tile_y = (2 ^ zoom.toNat - 1) - tile_y := by
  have hn : zoom.toNat ≤ 30 := by omega
  have h1 : (1 : Int) ≤ 2 ^ zoom.toNat := one_le_pow₀ (by norm_num)
  have h2 : (2 : Int) ^ zoom.toNat ≤ 2 ^ 30 := pow_le_pow_right₀ (by norm_num) hn
  have h3 : (2 : Int) ^ 30 = 1073741824 := by norm_num
  rw [h3] at h2
  unfold is_int INT_MIN INT_MAX at hrow
  unfold tms_row shl_one wrap32
  simp only []
  omega

/-! ## Claims -/

/-- C1: from a zoom level in 0..18 and for every int delta whose sum with the zoom
level does not overflow a C int, `map_viewer_zoom` leaves the zoom level equal to
min(18, max(0, zoom_level + delta)). -/
theorem zoom_clamps (viewer : MapViewer) (delta : Int)
    (_hz : 0 ≤ viewer.zoom_level ∧ viewer.zoom_level ≤ 18)
    (_hd : is_int delta) (hsum : is_int (viewer.zoom_level + delta)) :
    (map_viewer_zoom viewer delta).zoom_level
      = min 18 (max 0 (viewer.zoom_level + delta)) := by
  rw [zoom_level_after_zoom, wrap32_of_is_int hsum]

/-- Witness of C1 at the two scenarios of the specification: zoom 18 with delta +5
stays at 18, zoom 0 with delta -5 stays at 0. -/
theorem zoom_clamps_witness :
    (map_viewer_zoom
        { db := none, renderer := 0, center_lat := 46.8797, center_lon := -84.3397,
          zoom_level := 18, active := true } 5).zoom_level = 18
    ∧ (map_viewer_zoom
        { db := none, renderer := 0, center_lat := 46.8797, center_lon := -84.3397,
          zoom_level := 0, active := true } (-5)).zoom_level = 0 := by
  constructor
  · rw [zoom_clamps _ 5 (by decide) (by decide) (by decide)]; decide
  · rw [zoom_clamps _ (-5) (by decide) (by decide) (by decide)]; decide

/-- C2: the viewport invariant 0 <= zoom_level <= 18 holds after `map_viewer_init`
(whether or not the archive opens) and after every sequence of viewport operations
applied to the initialised viewport, for every delta, offset and position. -/
theorem zoom_inv_reachable (sqlite3_open : String → Int × Option Nat)
    (mbtiles_path : String) (renderer : Nat) (ops : List ViewerOp) :
    zoom_inv (map_viewer_init sqlite3_open mbtiles_path renderer).2
    ∧ zoom_inv (run_ops (map_viewer_init sqlite3_open mbtiles_path renderer).2 ops) := by
  have h0 : zoom_inv (map_viewer_init sqlite3_open mbtiles_path renderer).2 := by
    unfold map_viewer_init zoom_inv
    simp only []
    split_ifs <;> simp
  exact ⟨h0, zoom_inv_run_ops ops _ h0⟩

/-- C3 (amended): the tile column stored by `latlon_to_tile` is the real value
(longitude + 180) / 360 * 2^zoom truncated toward zero, whenever that fits a C int:
it is the floor of that value for every longitude >= -180, and its ceiling for
every longitude < -180. -/
theorem tile_column_truncates (lon : ℝ) (zoom : Int)
    (hrep : is_int (c_trunc ((lon + 180) / 360 * (2 : ℝ) ^ zoom))) :
    latlon_to_tile_x lon zoom
      = some (if -180 ≤ lon then ⌊(lon + 180) / 360 * (2 : ℝ) ^ zoom⌋
              else ⌈(lon + 180) / 360 * (2 : ℝ) ^ zoom⌉) := by
  have he : tile_x_real lon zoom = (lon + 180) / 360 * (2 : ℝ) ^ zoom := by
    unfold tile_x_real
    norm_num
  unfold latlon_to_tile_x
  rw [he, double_to_int_of_is_int hrep]
  by_cases h : -180 ≤ lon
  · rw [if_pos h, c_trunc_of_nonneg]
    rw [← he]
    exact (tile_x_real_nonneg_iff lon zoom).mpr h
  · rw [if_neg h, c_trunc_of_neg]
    rw [← he]
    exact not_le.mp (fun hc => h ((tile_x_real_nonneg_iff lon zoom).mp hc))

/-- Witness of C3 (amended) at longitude 0 and zoom 1: the column is 1. -/
theorem tile_column_truncates_witness :
    latlon_to_tile_x 0 1
      = some (if (-180 : ℝ) ≤ 0 then ⌊((0 : ℝ) + 180) / 360 * (2 : ℝ) ^ (1 : Int)⌋
              else ⌈((0 : ℝ) + 180) / 360 * (2 : ℝ) ^ (1 : Int)⌉) :=
  tile_column_truncates 0 1 (by
    have h : ((0 : ℝ) + 180) / 360 * (2 : ℝ) ^ (1 : Int) = 1 := by norm_num
    rw [h, c_trunc_of_nonneg (by norm_num)]
    simp [is_int, INT_MIN, INT_MAX])

/-- Counterexample to C3 as stated: at longitude -181 and zoom 0 the column stored
by `latlon_to_tile` is 0, while floor((longitude + 180) / 360 * 2^zoom) is -1. -/
theorem tile_column_not_floor :
    latlon_to_tile_x (-181) 0 = some 0
    ∧ ⌊((-181 : ℝ) + 180) / 360 * (2 : ℝ) ^ (0 : Int)⌋ = -1 := by
  have hv : tile_x_real (-181) 0 = -1 / 360 := by
    unfold tile_x_real
    norm_num
  have hc : c_trunc (-1 / 360 : ℝ) = 0 := by
    rw [c_trunc_of_neg (by norm_num), Int.ceil_eq_iff]
    norm_num
  constructor
  · unfold latlon_to_tile_x
    rw [hv, double_to_int_of_is_int (by rw [hc]; decide), hc]
  · rw [Int.floor_eq_iff]
    norm_num

/-- C4 (amended): for every latitude with |latitude| < 90 the tile row stored by
`latlon_to_tile` is the real value
(1 - ln(tan(lat_rad) + sec(lat_rad)) / pi) / 2 * 2^zoom, lat_rad = latitude * pi / 180,
truncated toward zero, whenever that fits a C int: it is the floor of that value
for every latitude up to the Web-Mercator limit atan(sinh(pi)) in degrees
(about 85.0511), and its ceiling for every latitude above that limit. -/
theorem tile_row_truncates (lat : ℝ) (zoom : Int) (hlat : |lat| < 90)
    (hrep : is_int (c_trunc
      ((1 - Real.log (Real.tan (lat * Real.pi / 180) + 1 / Real.cos (lat * Real.pi / 180))
          / Real.pi) / 2 * (2 : ℝ) ^ zoom))) :
    latlon_to_tile_y lat zoom
      = some (if lat ≤ Real.arctan (Real.sinh Real.pi) * 180 / Real.pi then
          ⌊(1 - Real.log (Real.tan (lat * Real.pi / 180)
                + 1 / Real.cos (lat * Real.pi / 180)) / Real.pi) / 2 * (2 : ℝ) ^ zoom⌋
        else
          ⌈(1 - Real.log (Real.tan (lat * Real.pi / 180)
                + 1 / Real.cos (lat * Real.pi / 180)) / Real.pi) / 2 * (2 : ℝ) ^ zoom⌉) := by
  have he := tile_y_real_eq lat zoom
  have hiff := tile_y_real_nonneg_iff hlat zoom
  unfold latlon_to_tile_y
  rw [he] at hiff ⊢
  rw [double_to_int_of_is_int hrep]
  by_cases h : lat ≤ Real.arctan (Real.sinh Real.pi) * 180 / Real.pi
  · rw [if_pos h, c_trunc_of_nonneg (hiff.mpr h)]
  · rw [if_neg h, c_trunc_of_neg (not_le.mp (fun hc => h (hiff.mp hc)))]

/-- Witness of C4 (amended) at latitude 0 and zoom 0, where the row value is 1/2. -/
theorem tile_row_truncates_witness :
    latlon_to_tile_y 0 0
      = some (if (0 : ℝ) ≤ Real.arctan (Real.sinh Real.pi) * 180 / Real.pi then
          ⌊(1 - Real.log (Real.tan (0 * Real.pi / 180)
                + 1 / Real.cos (0 * Real.pi / 180)) / Real.pi) / 2 * (2 : ℝ) ^ (0 : Int)⌋
        else
          ⌈(1 - Real.log (Real.tan (0 * Real.pi / 180)
                + 1 / Real.cos (0 * Real.pi / 180)) / Real.pi) / 2 * (2 : ℝ) ^ (0 : Int)⌉) :=
  tile_row_truncates 0 0 (by norm_num) (by
    have h : (1 - Real.log (Real.tan (0 * Real.pi / 180)
        + 1 / Real.cos (0 * Real.pi / 180)) / Real.pi) / 2 * (2 : ℝ) ^ (0 : Int)
        = 1 / 2 := by
      simp
    rw [h, c_trunc_of_nonneg (by norm_num)]
    have hf : ⌊(1 / 2 : ℝ)⌋ = 0 := by
      rw [Int.floor_eq_iff]
      norm_num
    rw [hf]
    decide)

/-- Counterexample to C4 as stated: at latitude 89 and zoom 0 the row stored by
`latlon_to_tile` is 0, while the floor of the row formula is -1. -/
theorem tile_row_not_floor :
    latlon_to_tile_y 89 0 = some 0
    ∧ ⌊(1 - Real.log (Real.tan (89 * Real.pi / 180) + 1 / Real.cos (89 * Real.pi / 180))
          / Real.pi) / 2 * (2 : ℝ) ^ (0 : Int)⌋ = -1 := by
  obtain ⟨hlo, hhi⟩ := tile_y_real_89_bounds
  have hc : c_trunc ((1 - Real.log (Real.tan (89 * Real.pi / 180)
      + 1 / Real.cos (89 * Real.pi / 180)) / Real.pi) / 2 * (2 : ℝ) ^ (0 : Int)) = 0 := by
    rw [c_trunc_of_neg hhi, Int.ceil_eq_iff]
    constructor
    · push_cast
      linarith
    · push_cast
      linarith
  constructor
  · unfold latlon_to_tile_y
    rw [tile_y_real_eq, double_to_int_of_is_int (by rw [hc]; decide), hc]
  · rw [Int.floor_eq_iff]
    constructor
    · push_cast
      linarith
    · push_cast
      linarith

/-- C5: round trip of the projection.  For every zoom Z >= 0 and every tile with
column c and row r (C ints) with 0 <= c, r < 2^Z, projecting the geographic centre of
the tile (longitude (c + 1/2) / 2^Z * 360 - 180, latitude
atan(sinh(pi * (1 - 2 (r + 1/2) / 2^Z))) in degrees) with `latlon_to_tile` at zoom Z
yields exactly (c, r). -/
theorem tile_centre_round_trip (Z c r : Int) (_hZ : 0 ≤ Z)
    (hc : 0 ≤ c ∧ (c : ℝ) < (2 : ℝ) ^ Z) (hr : 0 ≤ r ∧ (r : ℝ) < (2 : ℝ) ^ Z)
    (hci : is_int c) (hri : is_int r) :
    latlon_to_tile
      (Real.arctan (Real.sinh (Real.pi * (1 - 2 * ((r : ℝ) + 1 / 2) / (2 : ℝ) ^ Z)))
        * 180 / Real.pi)
      (((c : ℝ) + 1 / 2) / (2 : ℝ) ^ Z * 360 - 180) Z = some (c, r) := by
  have hx : latlon_to_tile_x (((c : ℝ) + 1 / 2) / (2 : ℝ) ^ Z * 360 - 180) Z = some c := by
    unfold latlon_to_tile_x
    rw [tile_x_real_centre,
      double_to_int_of_is_int (by rw [c_trunc_add_half hc.1]; exact hci),
      c_trunc_add_half hc.1]
  have hy : latlon_to_tile_y
      (Real.arctan (Real.sinh (Real.pi * (1 - 2 * ((r : ℝ) + 1 / 2) / (2 : ℝ) ^ Z)))
        * 180 / Real.pi) Z = some r := by
    unfold latlon_to_tile_y
    rw [tile_y_real_centre,
      double_to_int_of_is_int (by rw [c_trunc_add_half hr.1]; exact hri),
      c_trunc_add_half hr.1]
  unfold latlon_to_tile
  rw [hx, hy]

/-- Witness of C5 at zoom 10, column 272, row 360 (the tile of the default
position). -/
theorem tile_centre_round_trip_witness :
    latlon_to_tile
      (Real.arctan (Real.sinh (Real.pi
          * (1 - 2 * (((360 : Int) : ℝ) + 1 / 2) / (2 : ℝ) ^ (10 : Int))))
        * 180 / Real.pi)
      ((((272 : Int) : ℝ) + 1 / 2) / (2 : ℝ) ^ (10 : Int) * 360 - 180) 10
      = some (272, 360) :=
  tile_centre_round_trip 10 272 360 (by decide)
    ⟨by decide, by norm_num⟩ ⟨by decide, by norm_num⟩ (by decide) (by decide)

/-- C6: at the default position (zoom 10, latitude 46.8797, longitude -84.3397)
`latlon_to_tile` yields tile column 272, which is
floor((-84.3397 + 180) / 360 * 1024); the call is defined (its row fits a C int). -/
theorem default_tile_column :
    latlon_to_tile_x (-84.3397) 10 = some 272
    ∧ ⌊((-84.3397 : ℝ) + 180) / 360 * 1024⌋ = 272
    ∧ ∃ tile_y : Int, latlon_to_tile 46.8797 (-84.3397) 10 = some (272, tile_y) := by
  have hv : tile_x_real (-84.3397) 10 = ((-84.3397 : ℝ) + 180) / 360 * 1024 := by
    unfold tile_x_real
    norm_num
  have hf : ⌊((-84.3397 : ℝ) + 180) / 360 * 1024⌋ = 272 := by
    rw [Int.floor_eq_iff]
    norm_num
  have hx : latlon_to_tile_x (-84.3397) 10 = some 272 := by
    unfold latlon_to_tile_x
    rw [hv]
    have hc : c_trunc (((-84.3397 : ℝ) + 180) / 360 * 1024) = 272 := by
      rw [c_trunc_of_nonneg (by norm_num), hf]
    rw [double_to_int_of_is_int (by rw [hc]; decide), hc]
  obtain ⟨hlo, hhi⟩ := tile_y_real_default_bounds
  have hy : is_int (c_trunc (tile_y_real 46.8797 10)) := by
    rw [c_trunc_of_nonneg hlo]
    have h0 : (0 : Int) ≤ ⌊tile_y_real 46.8797 10⌋ := Int.floor_nonneg.mpr hlo
    have h1 : ⌊tile_y_real 46.8797 10⌋ ≤ 512 := by
      have h2 : ((⌊tile_y_real 46.8797 10⌋ : Int) : ℝ) ≤ tile_y_real 46.8797 10 :=
        Int.floor_le _
      have h3 : ((⌊tile_y_real 46.8797 10⌋ : Int) : ℝ) ≤ ((512 : Int) : ℝ) := by
        push_cast
        linarith
      exact_mod_cast h3
    unfold is_int INT_MIN INT_MAX
    constructor <;> omega
  refine ⟨hx, hf, c_trunc (tile_y_real 46.8797 10), ?_⟩
  unfold latlon_to_tile
  rw [hx]
  unfold latlon_to_tile_y
  rw [double_to_int_of_is_int hy]

/-- C7 (amended): for every zoom in 0..18, every column and every row for which
(2^zoom - 1) - row fits a C int, `map_viewer_get_tile` executes its lookup with
exactly the key (zoom_level = zoom, tile_column = column,
tile_row = (2^zoom - 1) - row): zoom and column are passed through unchanged, only
the row is inverted, and the result of the call is decided by the archive row
stored under that key. -/
theorem get_tile_lookup_key (env : Env) (viewer : MapViewer) (zoom tile_x tile_y : Int)
    (hz : 0 ≤ zoom ∧ zoom ≤ 18) (hrow : is_int ((2 ^ zoom.toNat - 1) - tile_y)) :
    lookup_key zoom tile_x tile_y
      = { zoom_level := zoom, tile_column := tile_x,
          tile_row := (2 ^ zoom.toNat - 1) - tile_y }
    ∧ (env.prepare_v2 viewer.db = SQLITE_OK →
        map_viewer_get_tile env viewer zoom tile_x tile_y
          = decode_row env viewer (env.step_row viewer.db
              { zoom_level := zoom, tile_column := tile_x,
                tile_row := (2 ^ zoom.toNat - 1) - tile_y })) := by
  have hk : lookup_key zoom tile_x tile_y
      = { zoom_level := zoom, tile_column := tile_x,
          tile_row := (2 ^ zoom.toNat - 1) - tile_y } := by
    unfold lookup_key
    rw [tms_row_eq hz, wrap32_of_is_int hrow]
  refine ⟨hk, fun hp => ?_⟩
  unfold map_viewer_get_tile
  rw [if_neg (not_not.mpr hp), hk]

/-- Witness of C7 (amended) at the tile of the default position: zoom 10, column
272, row 360 is looked up under row 663. -/
theorem get_tile_lookup_key_witness :
    lookup_key 10 272 360 = { zoom_level := 10, tile_column := 272, tile_row := 663 } :=
  (get_tile_lookup_key
    { prepare_v2 := fun _ => 0, step_row := fun _ _ => none,
      io_from_const_mem := fun _ => true, load_bmp := fun _ => false,
      create_surface := true, create_texture := fun _ => true }
    { db := some 1, renderer := 0, center_lat := 46.8797, center_lon := -84.3397,
      zoom_level := 10, active := true }
    10 272 360 (by decide) (by decide)).1

/-- Counterexample to C7 as stated: at zoom 0 and row -2147483648 (the least C int)
the subtraction overflows; the row of the key is -2147483648, not
(2^0 - 1) - row = 2147483648, which no C int holds. -/
theorem get_tile_lookup_key_overflow :
    (lookup_key 0 0 (-2147483648)).tile_row = -2147483648
    ∧ lookup_key 0 0 (-2147483648)
        ≠ { zoom_level := 0, tile_column := 0,
            tile_row := (2 ^ (0 : Int).toNat - 1) - (-2147483648) }
    ∧ ¬ is_int ((2 ^ (0 : Int).toNat - 1) - (-2147483648)) := by
  refine ⟨by decide, by decide, by decide⟩

/-- C8: the row inversion of `map_viewer_get_tile`,
tms_y = ((1 << zoom) - 1) - tile_y, is self-inverse: for every zoom in 0..18 and
every row (a C int), inverting the inverted row at the same zoom returns the row. -/
theorem tms_row_self_inverse (zoom tile_y : Int) (hz : 0 ≤ zoom ∧ zoom ≤ 18)
    (hy : is_int tile_y) :
    tms_row zoom (tms_row zoom tile_y) = tile_y := by
  obtain ⟨_, h1, h2⟩ := shl_one_eq hz
  rw [tms_row_eq hz, tms_row_eq hz]
  unfold is_int INT_MIN INT_MAX at hy
  unfold wrap32
  omega

/-- Witness of C8 at zoom 10: row 360 and the least C int are both restored. -/
theorem tms_row_self_inverse_witness :
    tms_row 10 (tms_row 10 360) = 360
    ∧ tms_row 10 (tms_row 10 (-2147483648)) = -2147483648 :=
  ⟨tms_row_self_inverse 10 360 (by decide) (by decide),
   tms_row_self_inverse 10 (-2147483648) (by decide) (by decide)⟩

/-- C9: for every viewport (zoom level within the invariant 0..18) and every pixel
offset (dx, dy), `map_viewer_pan` computes
m = 40075016.686 * cos(center_lat * pi / 180) / 2^(zoom_level + 8) from the latitude
before the call, and sets center_lon to center_lon + dx * m / 111320 and center_lat
to center_lat - dy * m / 110540, both with the same m. -/
theorem pan_formula (viewer : MapViewer) (dx dy : Int) (hz : zoom_inv viewer) :
    (map_viewer_pan viewer dx dy).center_lon
      = viewer.center_lon
        + (dx : ℝ) * (40075016.686 * Real.cos (viewer.center_lat * Real.pi / 180)
            / (2 : ℝ) ^ (viewer.zoom_level + 8)) / 111320
    ∧ (map_viewer_pan viewer dx dy).center_lat
      = viewer.center_lat
        - (dy : ℝ) * (40075016.686 * Real.cos (viewer.center_lat * Real.pi / 180)
            / (2 : ℝ) ^ (viewer.zoom_level + 8)) / 110540 := by
  rw [← meters_per_pixel_eq hz]
  unfold map_viewer_pan
  constructor <;> norm_num

/-- Witness of C9 at the default viewport (latitude 46.8797, longitude -84.3397,
zoom 10) with offset (50, -50). -/
theorem pan_formula_witness :
    (map_viewer_pan
        { db := none, renderer := 0, center_lat := 46.8797, center_lon := -84.3397,
          zoom_level := 10, active := true } 50 (-50)).center_lon
      = (-84.3397 : ℝ)
        + ((50 : Int) : ℝ) * (40075016.686 * Real.cos ((46.8797 : ℝ) * Real.pi / 180)
            / (2 : ℝ) ^ ((10 : Int) + 8)) / 111320 :=
  (pan_formula
    { db := none, renderer := 0, center_lat := 46.8797, center_lon := -84.3397,
      zoom_level := 10, active := true } 50 (-50) (by unfold zoom_inv; decide)).1

/-- C12 (amended): for every positive screen_width and screen_height (C ints) the
grid that `map_viewer_render` iterates over has
tiles_x = floor(screen_width / 256) + 2 columns and
tiles_y = floor(screen_height / 256) + 2 rows (C integer division, tile size 256),
and requests tiles_y * tiles_x tiles; tiles_x is ceil(screen_width / 256) + 2 only
when screen_width is a multiple of 256 and ceil(screen_width / 256) + 1 otherwise,
and likewise for tiles_y. -/
theorem grid_tiles_floor (env : Env) (viewer : MapViewer) (cx cy sw sh : Int)
    (hw : 0 < sw) (hh : 0 < sh) (hwi : is_int sw) (hhi : is_int sh) :
    grid_tiles sw = ⌊(sw : ℚ) / 256⌋ + 2
    ∧ grid_tiles sh = ⌊(sh : ℚ) / 256⌋ + 2
    ∧ (requested_tiles (render_pass env viewer cx cy sw sh)).length
        = (⌊(sh : ℚ) / 256⌋ + 2).toNat * (⌊(sw : ℚ) / 256⌋ + 2).toNat
    ∧ grid_tiles sw
        = (if 256 ∣ sw then ⌈(sw : ℚ) / 256⌉ + 2 else ⌈(sw : ℚ) / 256⌉ + 1)
    ∧ grid_tiles sh
        = (if 256 ∣ sh then ⌈(sh : ℚ) / 256⌉ + 2 else ⌈(sh : ℚ) / 256⌉ + 1) := by
  have h1 : grid_tiles sw = ⌊(sw : ℚ) / 256⌋ + 2 := by
    rw [floor_div_256, grid_tiles_eq hw.le hwi]
  have h2 : grid_tiles sh = ⌊(sh : ℚ) / 256⌋ + 2 := by
    rw [floor_div_256, grid_tiles_eq hh.le hhi]
  refine ⟨h1, h2, ?_, ?_, ?_⟩
  · rw [length_requested_tiles_render_pass, h1, h2]
  · rw [grid_tiles_eq hw.le hwi, ceil_div_256]
    split_ifs <;> omega
  · rw [grid_tiles_eq hh.le hhi, ceil_div_256]
    split_ifs <;> omega

/-- Witness of C12 (amended) at the window of the dashboard, 800 x 480: 5 columns
and 3 rows. -/
theorem grid_tiles_floor_witness :
    grid_tiles 800 = ⌊((800 : Int) : ℚ) / 256⌋ + 2
    ∧ grid_tiles 480 = ⌊((480 : Int) : ℚ) / 256⌋ + 2 :=
  ⟨(grid_tiles_floor empty_archive default_viewer 272 360 800 480
      (by decide) (by decide) (by decide) (by decide)).1,
   (grid_tiles_floor empty_archive default_viewer 272 360 800 480
      (by decide) (by decide) (by decide) (by decide)).2.1⟩

/-- Counterexample to C12 as stated: for screen_width = 800 the code iterates over
5 columns where ceil(800 / 256) + 2 is 6, and for screen_height = 480 over 3 rows
where ceil(480 / 256) + 2 is 4. -/
theorem grid_tiles_not_ceil :
    grid_tiles 800 = 5 ∧ ⌈((800 : Int) : ℚ) / 256⌉ + 2 = 6
    ∧ grid_tiles 480 = 3 ∧ ⌈((480 : Int) : ℚ) / 256⌉ + 2 = 4 := by
  refine ⟨by decide, ?_, by decide, ?_⟩
  · rw [ceil_div_256]
    decide
  · rw [ceil_div_256]
    decide

/-- C13 (amended): for screen_width = 800, screen_height = 480 and tile size 256, an
active `map_viewer_render` pass requests exactly 5 columns and 3 rows of tiles
(15 calls to `map_viewer_get_tile`): the tiles (cx - 2 + tx, cy - 1 + ty) for
tx = 0..4, ty = 0..2 around the projected centre tile (cx, cy), row by row. -/
theorem render_800_480_requests (env : Env) (viewer : MapViewer) (cx cy : Int)
    (hact : viewer.active = true)
    (hproj : latlon_to_tile viewer.center_lat viewer.center_lon viewer.zoom_level
      = some (cx, cy)) :
    map_viewer_render env viewer 800 480
      = some (render_pass env viewer cx cy 800 480)
    ∧ grid_tiles 800 = 5 ∧ grid_tiles 480 = 3
    ∧ (requested_tiles (render_pass env viewer cx cy 800 480)).length = 15
    ∧ requested_tiles (render_pass env viewer cx cy 800 480)
        = (List.range 3).flatMap (fun (ty : Nat) =>
            (List.range 5).map (fun (tx : Nat) =>
              (viewer.zoom_level, wrap32 (wrap32 (cx - 2) + (tx : Int)),
               wrap32 (wrap32 (cy - 1) + (ty : Int))))) := by
  refine ⟨map_viewer_render_active hact hproj 800 480, grid_tiles_800, grid_tiles_480,
    ?_, ?_⟩
  · rw [length_requested_tiles_render_pass, grid_tiles_800, grid_tiles_480]
    rfl
  · rw [requested_tiles_render_pass, grid_tiles_800, grid_tiles_480]
    rfl

/-- Witness of C13 (amended) at the default position, whose centre tile has
column 272. -/
theorem render_800_480_requests_witness :
    ∃ cy : Int,
      map_viewer_render empty_archive default_viewer 800 480
        = some (render_pass empty_archive default_viewer 272 cy 800 480)
      ∧ (requested_tiles (render_pass empty_archive default_viewer 272 cy 800 480)).length
          = 15 :=
  default_projection.elim (fun cy h =>
    ⟨cy, (render_800_480_requests empty_archive default_viewer 272 cy rfl h).1,
      (render_800_480_requests empty_archive default_viewer 272 cy rfl h).2.2.2.1⟩)

/-- Counterexample to C13 as stated: the active render pass of the default viewport
at 800 x 480 makes 15 calls to `map_viewer_get_tile`, in 3 rows, not 20 in 4. -/
theorem render_800_480_not_20 :
    ∃ events : List RenderEvent,
      map_viewer_render empty_archive default_viewer 800 480 = some events
      ∧ (requested_tiles events).length = 15
      ∧ (requested_tiles events).length ≠ 20
      ∧ grid_tiles 480 = 3 := by
  obtain ⟨cy, h⟩ := default_projection
  refine ⟨render_pass empty_archive default_viewer 272 cy 800 480,
    map_viewer_render_active rfl h 800 480, ?_, ?_, grid_tiles_480⟩
  · rw [length_requested_tiles_render_pass, grid_tiles_800, grid_tiles_480]
    rfl
  · rw [length_requested_tiles_render_pass, grid_tiles_800, grid_tiles_480]
    decide

/-- C14: for screen_width = 800 and screen_height = 480, when every fetch returns an
image, the 256 x 256 destination rectangles drawn by an active `map_viewer_render`
pass cover every pixel (px, py) with 0 <= px < 800 and 0 <= py < 480. -/
theorem render_800_480_covers (env : Env) (viewer : MapViewer) (cx cy : Int)
    (hact : viewer.active = true)
    (hproj : latlon_to_tile viewer.center_lat viewer.center_lon viewer.zoom_level
      = some (cx, cy))
    (hfetch : ∀ tile_x tile_y : Int,
      (map_viewer_get_tile env viewer viewer.zoom_level tile_x tile_y).isSome = true) :
    ∃ events : List RenderEvent,
      map_viewer_render env viewer 800 480 = some events
      ∧ ∀ px py : Int, 0 ≤ px → px < 800 → 0 ≤ py → py < 480 →
          ∃ (tile : Texture) (x y : Int),
            RenderEvent.render_texture tile x y 256 256 ∈ events
            ∧ x ≤ px ∧ px < x + 256 ∧ y ≤ py ∧ py < y + 256 := by
  refine ⟨render_pass env viewer cx cy 800 480, map_viewer_render_active hact hproj 800 480,
    ?_⟩
  intro px py hx0 hx1 hy0 hy1
  obtain ⟨tile, htile⟩ := Option.isSome_iff_exists.mp
    (hfetch (wrap32 (start_tile cx (grid_tiles 800) + (((px + 272) / 256).toNat : Int)))
      (wrap32 (start_tile cy (grid_tiles 480) + (((py + 112) / 256).toNat : Int))))
  have htx : (((px + 272) / 256).toNat : Int) = (px + 272) / 256 :=
    Int.toNat_of_nonneg (by omega)
  have hty : (((py + 112) / 256).toNat : Int) = (py + 112) / 256 :=
    Int.toNat_of_nonneg (by omega)
  have hdx : dest_offset 800 (((px + 272) / 256).toNat : Int)
      = (px + 272) / 256 * 256 - 272 := by
    rw [dest_offset_eq (by norm_num) (by decide) (by omega) (by omega), htx]
    norm_num
  have hdy : dest_offset 480 (((py + 112) / 256).toNat : Int)
      = (py + 112) / 256 * 256 - 112 := by
    rw [dest_offset_eq (by norm_num) (by decide) (by omega) (by omega), hty]
    norm_num
  refine ⟨tile, dest_offset 800 (((px + 272) / 256).toNat : Int),
    dest_offset 480 (((py + 112) / 256).toNat : Int), ?_, ?_, ?_, ?_, ?_⟩
  · rw [mem_render_pass_texture]
    refine ⟨((py + 112) / 256).toNat, ((px + 272) / 256).toNat, ?_, ?_, htile, rfl, rfl,
      rfl, rfl⟩
    · rw [grid_tiles_480]
      show ((py + 112) / 256).toNat < 3
      omega
    · rw [grid_tiles_800]
      show ((px + 272) / 256).toNat < 5
      omega
  · rw [hdx]; omega
  · rw [hdx]; omega
  · rw [hdy]; omega
  · rw [hdy]; omega

/-- Witness of C14: the default viewport over an archive that holds an image under
every key. -/
theorem render_800_480_covers_witness :
    ∃ events : List RenderEvent,
      map_viewer_render bmp_archive default_viewer 800 480 = some events
      ∧ ∀ px py : Int, 0 ≤ px → px < 800 → 0 ≤ py → py < 480 →
          ∃ (tile : Texture) (x y : Int),
            RenderEvent.render_texture tile x y 256 256 ∈ events
            ∧ x ≤ px ∧ px < x + 256 ∧ y ≤ py ∧ py < y + 256 :=
  default_projection.elim (fun cy h =>
    render_800_480_covers bmp_archive default_viewer 272 cy rfl h
      (fun tile_x tile_y => by rw [get_tile_bmp_archive]; rfl))

/-- C15 (amended): for every active viewport whose centre projects to a tile, and
every screen size, `map_viewer_render` draws an image exactly in the grid cells
whose fetch returned a texture: each image drawn is the texture that
`map_viewer_get_tile` returned for a grid cell (tx, ty), drawn 256 x 256 at that
cell, and every cell whose fetch returned a texture is drawn.  A cell whose fetch
misses gets no image (no placeholder is substituted by the render pass). -/
theorem render_draws_fetched_tiles (env : Env) (viewer : MapViewer) (cx cy sw sh : Int)
    (hact : viewer.active = true)
    (hproj : latlon_to_tile viewer.center_lat viewer.center_lon viewer.zoom_level
      = some (cx, cy)) :
    ∃ events : List RenderEvent,
      map_viewer_render env viewer sw sh = some events
      ∧ ∀ (tile : Texture) (x y w h : Int),
          RenderEvent.render_texture tile x y w h ∈ events
            ↔ ∃ ty tx : Nat, ty < (grid_tiles sh).toNat ∧ tx < (grid_tiles sw).toNat
                ∧ map_viewer_get_tile env viewer viewer.zoom_level
                    (wrap32 (start_tile cx (grid_tiles sw) + (tx : Int)))
                    (wrap32 (start_tile cy (grid_tiles sh) + (ty : Int))) = some tile
                ∧ x = dest_offset sw tx ∧ y = dest_offset sh ty
                ∧ w = TILE_SIZE ∧ h = TILE_SIZE :=
  ⟨render_pass env viewer cx cy sw sh, map_viewer_render_active hact hproj sw sh,
    fun tile x y w h => mem_render_pass_texture env viewer cx cy sw sh tile x y w h⟩

/-- Witness of C15 (amended): the default viewport at 800 x 480 over an archive that
holds an image under every key. -/
theorem render_draws_fetched_tiles_witness :
    ∃ events : List RenderEvent,
      map_viewer_render bmp_archive default_viewer 800 480 = some events
      ∧ ∀ (tile : Texture) (_x _y _w _h : Int),
          RenderEvent.render_texture tile _x _y _w _h ∈ events →
            tile = { renderer := 0, surface := Surface.loaded [66, 77] } :=
  default_projection.elim (fun cy hp =>
    (render_draws_fetched_tiles bmp_archive default_viewer 272 cy 800 480 rfl hp).elim
      (fun events hev =>
        ⟨events, hev.1, fun tile x y w h hmem => by
          obtain ⟨ty, tx, _, _, hget, _⟩ := (hev.2 tile x y w h).mp hmem
          rw [get_tile_bmp_archive] at hget
          exact (Option.some.inj hget).symm⟩))

/-- Counterexample to C15 as stated: over an archive without tiles the active render
pass of the default viewport at 800 x 480 requests its 15 grid cells, every fetch
misses, and no image at all is drawn: every cell is a hole. -/
theorem render_miss_draws_nothing :
    ∃ events : List RenderEvent,
      map_viewer_render empty_archive default_viewer 800 480 = some events
      ∧ (requested_tiles events).length = 15
      ∧ ∀ (tile : Texture) (x y w h : Int),
          RenderEvent.render_texture tile x y w h ∉ events := by
  obtain ⟨cy, hp⟩ := default_projection
  refine ⟨render_pass empty_archive default_viewer 272 cy 800 480,
    map_viewer_render_active rfl hp 800 480, ?_, ?_⟩
  · rw [length_requested_tiles_render_pass, grid_tiles_800, grid_tiles_480]
    rfl
  · intro tile x y w h hmem
    rw [mem_render_pass_texture] at hmem
    obtain ⟨ty, tx, _, _, hget, _⟩ := hmem
    rw [get_tile_empty_archive] at hget
    exact Option.noConfusion hget

/-- C16 (amended): `map_viewer_get_tile` returns a miss (NULL) whenever the lookup
statement cannot be prepared, and for every address (zoom, column, row) with zoom in
0..30 and (2^zoom - 1) - row representable as a C int, negative and out-of-range
columns and rows included, whose inverted key (zoom, column, (2^zoom - 1) - row) has
no row in the archive. -/
theorem get_tile_miss (env : Env) (viewer : MapViewer) (zoom tile_x tile_y : Int) :
    (env.prepare_v2 viewer.db ≠ SQLITE_OK →
      map_viewer_get_tile env viewer zoom tile_x tile_y = none)
    ∧ (0 ≤ zoom ∧ zoom ≤ 30 → is_int ((2 ^ zoom.toNat - 1) - tile_y) →
       env.step_row viewer.db
          { zoom_level := zoom, tile_column := tile_x,
            tile_row := (2 ^ zoom.toNat - 1) - tile_y } = none →
       map_viewer_get_tile env viewer zoom tile_x tile_y = none) := by
  refine ⟨fun h => get_tile_of_prepare_fails h zoom tile_x tile_y, ?_⟩
  intro hz hrow hnone
  apply get_tile_of_no_row
  unfold lookup_key
  rw [tms_row_exact hz hrow]
  exact hnone

/-- Witness of C16 (amended): a negative column and row over an archive without
tiles, and a statement that cannot be prepared, both give a miss. -/
theorem get_tile_miss_witness :
    map_viewer_get_tile empty_archive default_viewer 10 (-1) (-5) = none
    ∧ map_viewer_get_tile failing_archive default_viewer 10 272 360 = none :=
  ⟨(get_tile_miss empty_archive default_viewer 10 (-1) (-5)).2
      (by decide) (by decide) rfl,
   (get_tile_miss failing_archive default_viewer 10 272 360).1 (by decide)⟩

/-- Counterexample to C16 as stated: for the address (10, 272, -2147483648) the key
the claim names, (10, 272, (2^10 - 1) - row) with row 2147484671, has no row in the
archive, yet the call does not miss: the subtraction overflows, the statement is
executed with tile_row -2147482625, and the tile stored under that key is
returned. -/
theorem get_tile_miss_overflow :
    negative_row_archive.prepare_v2 default_viewer.db = SQLITE_OK
    ∧ negative_row_archive.step_row default_viewer.db
        { zoom_level := 10, tile_column := 272,
          tile_row := (2 ^ (10 : Int).toNat - 1) - (-2147483648) } = none
    ∧ lookup_key 10 272 (-2147483648)
        = { zoom_level := 10, tile_column := 272, tile_row := -2147482625 }
    ∧ map_viewer_get_tile negative_row_archive default_viewer 10 272 (-2147483648)
        = some { renderer := 0, surface := Surface.loaded [66, 77] }
    ∧ map_viewer_get_tile negative_row_archive default_viewer 10 272 (-2147483648)
        ≠ none := by
  have hk : lookup_key 10 272 (-2147483648)
      = { zoom_level := 10, tile_column := 272, tile_row := -2147482625 } := by decide
  have hget : map_viewer_get_tile negative_row_archive default_viewer 10 272 (-2147483648)
      = some { renderer := 0, surface := Surface.loaded [66, 77] } := by
    unfold map_viewer_get_tile
    rw [hk]
    simp [negative_row_archive, decode_row, default_viewer, SQLITE_OK]
  refine ⟨rfl, by decide, hk, hget, ?_⟩
  rw [hget]
  exact Option.noConfusion

/-- C17 (amended): a decode failure is not a miss.  For every address whose archive
row exists but whose bytes `SDL_LoadBMP_IO` cannot decode, `map_viewer_get_tile`
returns a texture of a 256 x 256 surface filled with the flat colour (100, 120, 140)
whenever SDL creates the memory stream, the surface and the texture, and NULL only
when one of these three creations fails. -/
theorem get_tile_decode_failure (env : Env) (viewer : MapViewer)
    (zoom tile_x tile_y : Int) (blob : List Nat)
    (hprep : env.prepare_v2 viewer.db = SQLITE_OK)
    (hrow : env.step_row viewer.db (lookup_key zoom tile_x tile_y) = some blob)
    (hbmp : env.load_bmp blob = false) :
    map_viewer_get_tile env viewer zoom tile_x tile_y
      = (if env.io_from_const_mem blob = true ∧ env.create_surface = true
            ∧ env.create_texture (Surface.filled 256 256 100 120 140) = true then
          some { renderer := viewer.renderer,
                 surface := Surface.filled 256 256 100 120 140 }
        else none) := by
  unfold map_viewer_get_tile
  rw [if_neg (not_not.mpr hprep), hrow]
  unfold decode_row TILE_SIZE
  simp only [hbmp]
  cases h1 : env.io_from_const_mem blob <;> cases h2 : env.create_surface <;>
    cases h3 : env.create_texture (Surface.filled 256 256 100 120 140) <;> simp [h3]

/-- Witness of C17 (amended): PNG bytes stored under the key of tile (10, 272, 360)
come back as the flat placeholder texture. -/
theorem get_tile_decode_failure_witness :
    map_viewer_get_tile png_archive default_viewer 10 272 360
      = (if png_archive.io_from_const_mem [137, 80, 78, 71] = true
            ∧ png_archive.create_surface = true
            ∧ png_archive.create_texture (Surface.filled 256 256 100 120 140) = true then
          some { renderer := default_viewer.renderer,
                 surface := Surface.filled 256 256 100 120 140 }
        else none) :=
  get_tile_decode_failure png_archive default_viewer 10 272 360 [137, 80, 78, 71]
    rfl rfl rfl

/-- Counterexample to C17 as stated: for tile (10, 272, 360) an archive row with
undecodable bytes yields the flat placeholder texture, while an absent row yields
NULL; the two results differ. -/
theorem get_tile_decode_failure_not_miss :
    map_viewer_get_tile png_archive default_viewer 10 272 360
      = some { renderer := 0, surface := Surface.filled 256 256 100 120 140 }
    ∧ map_viewer_get_tile empty_archive default_viewer 10 272 360 = none
    ∧ map_viewer_get_tile png_archive default_viewer 10 272 360
      ≠ map_viewer_get_tile empty_archive default_viewer 10 272 360 := by
  have h1 : map_viewer_get_tile png_archive default_viewer 10 272 360
      = some { renderer := 0, surface := Surface.filled 256 256 100 120 140 } := by
    simp [map_viewer_get_tile, decode_row, png_archive, default_viewer, SQLITE_OK,
      TILE_SIZE]
  have h2 := get_tile_empty_archive default_viewer 10 272 360
  refine ⟨h1, h2, ?_⟩
  rw [h1, h2]
  exact Option.noConfusion

/-- C18 (the code at the failing input): `sqlite3_open` fails, so `map_viewer_init`
returns false and `main` only prints its warning; the key events SPACE (skip the
boot screen) and TAB then leave show_map and map_viewer.active both true, and the
next `render_dashboard` runs an active render pass that calls
`map_viewer_get_tile` 15 times on the archive that never opened, drawing nothing.
The map feature is not disabled. -/
theorem failed_init_map_not_disabled :
    (app_start open_fails 0).1 = false
    ∧ (handle_events (app_start open_fails 0).2
        [Event.SDL_EVENT_KEY_DOWN Key.SDLK_SPACE false,
         Event.SDL_EVENT_KEY_DOWN Key.SDLK_TAB false] false false).running = true
    ∧ (handle_events (app_start open_fails 0).2
        [Event.SDL_EVENT_KEY_DOWN Key.SDLK_SPACE false,
         Event.SDL_EVENT_KEY_DOWN Key.SDLK_TAB false] false false).show_map = true
    ∧ (handle_events (app_start open_fails 0).2
        [Event.SDL_EVENT_KEY_DOWN Key.SDLK_SPACE false,
         Event.SDL_EVENT_KEY_DOWN Key.SDLK_TAB false] false false).map_viewer.active = true
    ∧ ∃ events : List RenderEvent,
        render_dashboard failing_archive
          (handle_events (app_start open_fails 0).2
            [Event.SDL_EVENT_KEY_DOWN Key.SDLK_SPACE false,
             Event.SDL_EVENT_KEY_DOWN Key.SDLK_TAB false] false false) = some events
        ∧ (requested_tiles events).length = 15
        ∧ ∀ (tile : Texture) (x y w h : Int),
            RenderEvent.render_texture tile x y w h ∉ events := by
  have hv : (handle_events (app_start open_fails 0).2
      [Event.SDL_EVENT_KEY_DOWN Key.SDLK_SPACE false,
       Event.SDL_EVENT_KEY_DOWN Key.SDLK_TAB false] false false).map_viewer
      = default_viewer := by
    simp [handle_events, handle_event, handle_key_down, app_start, map_viewer_init,
      map_viewer_toggle, open_fails, default_viewer, SQLITE_OK]
  have hb : (handle_events (app_start open_fails 0).2
      [Event.SDL_EVENT_KEY_DOWN Key.SDLK_SPACE false,
       Event.SDL_EVENT_KEY_DOWN Key.SDLK_TAB false] false false).boot_complete = true := by
    simp [handle_events, handle_event, handle_key_down, app_start]
  have hs : (handle_events (app_start open_fails 0).2
      [Event.SDL_EVENT_KEY_DOWN Key.SDLK_SPACE false,
       Event.SDL_EVENT_KEY_DOWN Key.SDLK_TAB false] false false).show_map = true := by
    simp [handle_events, handle_event, handle_key_down, app_start]
  have hr : (handle_events (app_start open_fails 0).2
      [Event.SDL_EVENT_KEY_DOWN Key.SDLK_SPACE false,
       Event.SDL_EVENT_KEY_DOWN Key.SDLK_TAB false] false false).running = true := by
    simp [handle_events, handle_event, handle_key_down, app_start]
  have hi : (app_start open_fails 0).1 = false := by
    simp [app_start, map_viewer_init, open_fails, SQLITE_OK]
  refine ⟨hi, hr, hs, ?_, ?_⟩
  · rw [hv]
    rfl
  · obtain ⟨cy, hp⟩ := default_projection
    refine ⟨render_pass failing_archive default_viewer 272 cy 800 480, ?_, ?_, ?_⟩
    · unfold render_dashboard
      rw [hb, hs, hv]
      simp only [Bool.not_true, Bool.false_eq_true, if_false, if_true]
      exact map_viewer_render_active rfl hp 800 480
    · rw [length_requested_tiles_render_pass, grid_tiles_800, grid_tiles_480]
      rfl
    · intro tile x y w h hmem
      rw [mem_render_pass_texture] at hmem
      obtain ⟨ty, tx, _, _, hget, _⟩ := hmem
      rw [get_tile_of_prepare_fails (by decide)] at hget
      exact Option.noConfusion hget

/-- C19: `map_viewer_cleanup` is idempotent and safe on an unopened handle.  On a
viewer whose db handle is null it closes nothing and leaves the viewer unchanged; on
every viewer it leaves db null and the other fields as they were; a second call
closes nothing and returns the state of the first, so two calls close the archive
at most once. -/
theorem cleanup_idempotent (viewer : MapViewer) :
    map_viewer_cleanup { viewer with db := none } = ({ viewer with db := none }, 0)
    ∧ (map_viewer_cleanup viewer).1 = { viewer with db := none }
    ∧ map_viewer_cleanup (map_viewer_cleanup viewer).1
        = ((map_viewer_cleanup viewer).1, 0)
    ∧ (map_viewer_cleanup viewer).2
        + (map_viewer_cleanup (map_viewer_cleanup viewer).1).2 ≤ 1 := by
  have h1 : (map_viewer_cleanup viewer).1 = { viewer with db := none } := by
    unfold map_viewer_cleanup
    cases hdb : viewer.db with
    | none =>
      simp only []
      cases viewer
      simp_all
    | some d => rfl
  have h2 : (map_viewer_cleanup viewer).2 ≤ 1 := by
    unfold map_viewer_cleanup
    cases viewer.db <;> simp
  have h0 : map_viewer_cleanup { viewer with db := none } = ({ viewer with db := none }, 0) :=
    rfl
  refine ⟨h0, h1, ?_, ?_⟩
  · rw [h1]
    rfl
  · rw [h1, h0]
    simpa using h2

/-- C20: after `map_viewer_init`, whether or not the archive opens, the viewport is
the Northern Ontario default: center_lat = 46.8797, center_lon = -84.3397,
zoom_level = 10, active = false, and renderer is the renderer passed in. -/
theorem init_sets_default (sqlite3_open : String → Int × Option Nat)
    (mbtiles_path : String) (renderer : Nat) :
    (map_viewer_init sqlite3_open mbtiles_path renderer).2.center_lat = 46.8797
    ∧ (map_viewer_init sqlite3_open mbtiles_path renderer).2.center_lon = -84.3397
    ∧ (map_viewer_init sqlite3_open mbtiles_path renderer).2.zoom_level = 10
    ∧ (map_viewer_init sqlite3_open mbtiles_path renderer).2.active = false
    ∧ (map_viewer_init sqlite3_open mbtiles_path renderer).2.renderer = renderer
    ∧ ((map_viewer_init sqlite3_open mbtiles_path renderer).1 = true
        ↔ (sqlite3_open mbtiles_path).1 = SQLITE_OK) := by
  unfold map_viewer_init
  simp only []
  split_ifs with h <;> simp_all

/-- C21: for every screen size (C ints) and every grid cell (tx, ty) with
0 <= tx < tiles_x and 0 <= ty < tiles_y, an active `map_viewer_render` places the
256 x 256 image fetched for that cell at the pixel offset
(tx * 256 - (screen_width / 2 - 128), ty * 256 - (screen_height / 2 - 128)), with C
integer division; the offsets of horizontally and of vertically adjacent cells
differ by exactly 256. -/
theorem cell_placement (env : Env) (viewer : MapViewer) (cx cy sw sh : Int)
    (tx ty : Nat) (hact : viewer.active = true)
    (hproj : latlon_to_tile viewer.center_lat viewer.center_lon viewer.zoom_level
      = some (cx, cy))
    (hsw : is_int sw) (hsh : is_int sh)
    (htx : (tx : Int) < grid_tiles sw) (hty : (ty : Int) < grid_tiles sh) :
    ∃ events : List RenderEvent,
      map_viewer_render env viewer sw sh = some events
      ∧ (∀ tile : Texture,
          map_viewer_get_tile env viewer viewer.zoom_level
              (wrap32 (start_tile cx (grid_tiles sw) + (tx : Int)))
              (wrap32 (start_tile cy (grid_tiles sh) + (ty : Int))) = some tile →
            RenderEvent.render_texture tile ((tx : Int) * 256 - (sw.tdiv 2 - 128))
              ((ty : Int) * 256 - (sh.tdiv 2 - 128)) 256 256 ∈ events)
      ∧ dest_offset sw tx = (tx : Int) * 256 - (sw.tdiv 2 - 128)
      ∧ dest_offset sh ty = (ty : Int) * 256 - (sh.tdiv 2 - 128)
      ∧ ((tx : Int) + 1 < grid_tiles sw →
          dest_offset sw ((tx : Int) + 1) - dest_offset sw tx = 256)
      ∧ ((ty : Int) + 1 < grid_tiles sh →
          dest_offset sh ((ty : Int) + 1) - dest_offset sh ty = 256) := by
  have hx := dest_offset_exact hsw (Int.natCast_nonneg tx) htx
  have hy := dest_offset_exact hsh (Int.natCast_nonneg ty) hty
  refine ⟨render_pass env viewer cx cy sw sh, map_viewer_render_active hact hproj sw sh,
    ?_, hx, hy, ?_, ?_⟩
  · intro tile htile
    rw [mem_render_pass_texture]
    exact ⟨ty, tx, by omega, by omega, htile, hx.symm, hy.symm, rfl, rfl⟩
  · intro h
    rw [dest_offset_exact hsw (by omega) h, hx]
    ring
  · intro h
    rw [dest_offset_exact hsh (by omega) h, hy]
    ring

/-- Witness of C21: the middle cell (2, 1) of the default viewport at 800 x 480 is
placed at (240, 144), and its right and lower neighbours 256 further. -/
theorem cell_placement_witness :
    dest_offset 800 ((2 : Nat) : Int) = ((2 : Nat) : Int) * 256 - ((800 : Int).tdiv 2 - 128)
    ∧ dest_offset 480 ((1 : Nat) : Int) = ((1 : Nat) : Int) * 256 - ((480 : Int).tdiv 2 - 128)
    ∧ dest_offset 800 (((2 : Nat) : Int) + 1) - dest_offset 800 ((2 : Nat) : Int) = 256
    ∧ dest_offset 480 (((1 : Nat) : Int) + 1) - dest_offset 480 ((1 : Nat) : Int) = 256 :=
  default_projection.elim (fun cy hp =>
    (cell_placement bmp_archive default_viewer 272 cy 800 480 2 1 rfl hp
      (by decide) (by decide) (by decide) (by decide)).elim
      (fun _ h => ⟨h.2.2.1, h.2.2.2.1, h.2.2.2.2.1 (by decide), h.2.2.2.2.2 (by decide)⟩))

/-- C22: for every active viewport whose centre projects to the tile (cx, cy) and
every screen size, grid cell (tx, ty) of a render pass requests the tile
(cx - tiles_x / 2 + tx, cy - tiles_y / 2 + ty), computed in C int arithmetic, at the
zoom level of the viewport; the projected centre tile is requested exactly once, by
the middle cell (tiles_x / 2, tiles_y / 2); and for the 800 x 480 window the
rectangle of that cell contains the screen centre (400, 240), where the crosshair
is drawn. -/
theorem centre_tile_requested (env : Env) (viewer : MapViewer) (cx cy sw sh : Int)
    (hact : viewer.active = true)
    (hproj : latlon_to_tile viewer.center_lat viewer.center_lon viewer.zoom_level
      = some (cx, cy))
    (hsw : 0 ≤ sw ∧ is_int sw) (hsh : 0 ≤ sh ∧ is_int sh) :
    (∃ events : List RenderEvent,
      map_viewer_render env viewer sw sh = some events
      ∧ requested_tiles events
          = (List.range (grid_tiles sh).toNat).flatMap (fun (ty : Nat) =>
              (List.range (grid_tiles sw).toNat).map (fun (tx : Nat) =>
                (viewer.zoom_level,
                 wrap32 (wrap32 (cx - (grid_tiles sw).tdiv 2) + (tx : Int)),
                 wrap32 (wrap32 (cy - (grid_tiles sh).tdiv 2) + (ty : Int)))))
      ∧ List.count (viewer.zoom_level, cx, cy) (requested_tiles events) = 1)
    ∧ (0 ≤ (grid_tiles sw).tdiv 2 ∧ (grid_tiles sw).tdiv 2 < grid_tiles sw
        ∧ 0 ≤ (grid_tiles sh).tdiv 2 ∧ (grid_tiles sh).tdiv 2 < grid_tiles sh)
    ∧ (∀ tx ty : Nat, (tx : Int) < grid_tiles sw → (ty : Int) < grid_tiles sh →
        ((wrap32 (wrap32 (cx - (grid_tiles sw).tdiv 2) + (tx : Int)) = cx
            ∧ wrap32 (wrap32 (cy - (grid_tiles sh).tdiv 2) + (ty : Int)) = cy)
          ↔ ((tx : Int) = (grid_tiles sw).tdiv 2 ∧ (ty : Int) = (grid_tiles sh).tdiv 2)))
    ∧ (∀ tx : Nat, is_int (cx - (grid_tiles sw).tdiv 2) →
        is_int (cx - (grid_tiles sw).tdiv 2 + (tx : Int)) →
        wrap32 (wrap32 (cx - (grid_tiles sw).tdiv 2) + (tx : Int))
          = cx - (grid_tiles sw).tdiv 2 + (tx : Int))
    ∧ (∀ ty : Nat, is_int (cy - (grid_tiles sh).tdiv 2) →
        is_int (cy - (grid_tiles sh).tdiv 2 + (ty : Int)) →
        wrap32 (wrap32 (cy - (grid_tiles sh).tdiv 2) + (ty : Int))
          = cy - (grid_tiles sh).tdiv 2 + (ty : Int))
    ∧ ((grid_tiles 800).tdiv 2 = 2 ∧ (grid_tiles 480).tdiv 2 = 1
        ∧ dest_offset 800 2 ≤ 400 ∧ 400 < dest_offset 800 2 + 256
        ∧ dest_offset 480 1 ≤ 240 ∧ 240 < dest_offset 480 1 + 256
        ∧ RenderEvent.render_line 380 240 420 240 ∈ render_pass env viewer cx cy 800 480
        ∧ RenderEvent.render_line 400 220 400 260 ∈ render_pass env viewer cx cy 800 480) := by
  obtain ⟨hcx, hcy⟩ := latlon_to_tile_is_int hproj
  obtain ⟨hx0, hx1, hxe⟩ := grid_tiles_half hsw.1 hsw.2
  obtain ⟨hy0, hy1, hye⟩ := grid_tiles_half hsh.1 hsh.2
  obtain ⟨hgx, _⟩ := grid_tiles_le hsw.2
  obtain ⟨hgy, _⟩ := grid_tiles_le hsh.2
  have hreq : requested_tiles (render_pass env viewer cx cy sw sh)
      = (List.range (grid_tiles sh).toNat).flatMap (fun (ty : Nat) =>
          (List.range (grid_tiles sw).toNat).map (fun (tx : Nat) =>
            (viewer.zoom_level,
             wrap32 (wrap32 (cx - (grid_tiles sw).tdiv 2) + (tx : Int)),
             wrap32 (wrap32 (cy - (grid_tiles sh).tdiv 2) + (ty : Int))))) := by
    rw [requested_tiles_render_pass]
    rfl
  have hiff : ∀ tx ty : Nat, (tx : Int) < grid_tiles sw → (ty : Int) < grid_tiles sh →
      ((wrap32 (wrap32 (cx - (grid_tiles sw).tdiv 2) + (tx : Int)) = cx
          ∧ wrap32 (wrap32 (cy - (grid_tiles sh).tdiv 2) + (ty : Int)) = cy)
        ↔ ((tx : Int) = (grid_tiles sw).tdiv 2 ∧ (ty : Int) = (grid_tiles sh).tdiv 2)) := by
    intro tx ty htx hty
    constructor
    · rintro ⟨h1, h2⟩
      have e1 := wrap32_sub_add (h := (grid_tiles sw).tdiv 2) hcx
      have e2 := wrap32_sub_add (h := (grid_tiles sh).tdiv 2) hcy
      exact ⟨wrap32_add_inj (by omega) (by omega) hx0 (by omega) (h1.trans e1.symm),
        wrap32_add_inj (by omega) (by omega) hy0 (by omega) (h2.trans e2.symm)⟩
    · rintro ⟨h1, h2⟩
      rw [h1, h2]
      exact ⟨wrap32_sub_add hcx, wrap32_sub_add hcy⟩
  refine ⟨⟨render_pass env viewer cx cy sw sh, map_viewer_render_active hact hproj sw sh,
    hreq, ?_⟩, ⟨hx0, hx1, hy0, hy1⟩, hiff, ?_, ?_, ?_⟩
  · rw [hreq]
    apply count_eq_one_of_nodup_mem
    · exact nodup_grid_requests _ _ _ _ _ (by omega) (by omega)
    · rw [mem_grid_requests]
      refine ⟨((grid_tiles sh).tdiv 2).toNat, ((grid_tiles sw).tdiv 2).toNat,
        by omega, by omega, rfl, ?_, ?_⟩
      · rw [Int.toNat_of_nonneg hx0]
        exact (wrap32_sub_add hcx).symm
      · rw [Int.toNat_of_nonneg hy0]
        exact (wrap32_sub_add hcy).symm
  · intro tx h1 h2
    rw [wrap32_of_is_int h1, wrap32_of_is_int h2]
  · intro ty h1 h2
    rw [wrap32_of_is_int h1, wrap32_of_is_int h2]
  · refine ⟨by decide, by decide, by decide, by decide, by decide, by decide, ?_, ?_⟩
    · unfold render_pass
      simp only [List.mem_append, List.mem_cons, List.mem_singleton]
      right
      right
      left
      decide
    · unfold render_pass
      simp only [List.mem_append, List.mem_cons, List.mem_singleton]
      right
      right
      right
      decide

/-- Witness of C22 at the default viewport and the 800 x 480 window: the centre tile
(272, cy) is requested exactly once. -/
theorem centre_tile_requested_witness :
    ∃ (cy : Int) (events : List RenderEvent),
      map_viewer_render empty_archive default_viewer 800 480 = some events
      ∧ List.count (default_viewer.zoom_level, 272, cy) (requested_tiles events) = 1 :=
  default_projection.elim (fun cy hp =>
    (centre_tile_requested empty_archive default_viewer 272 cy 800 480 rfl hp
      ⟨by decide, by decide⟩ ⟨by decide, by decide⟩).1.elim
      (fun events h => ⟨cy, events, h.1, h.2.2⟩))

/-- C23 (the code at the failing input): on a 1920 x 1080 screen (both sizes
>= 256), with every fetch returning an image, the active render pass of the default
viewport does not cover the screen: its 9 columns of rectangles end at x = 1472 and
the pixel (1919, 0) lies in none of them.  The grid is anchored at 128 - 1920 / 2
whatever the number of columns, so the rectangle of the middle cell (column 4, which
requests the centre tile) ends at x = 448, left of the crosshair at x = 960. -/
theorem render_1920_1080_gap :
    ∃ events : List RenderEvent,
      map_viewer_render bmp_archive default_viewer 1920 1080 = some events
      ∧ (256 : Int) ≤ 1920 ∧ (256 : Int) ≤ 1080
      ∧ (∀ tile_x tile_y : Int,
          (map_viewer_get_tile bmp_archive default_viewer default_viewer.zoom_level
            tile_x tile_y).isSome = true)
      ∧ (¬ ∃ (tile : Texture) (x y : Int),
          RenderEvent.render_texture tile x y 256 256 ∈ events
          ∧ x ≤ 1919 ∧ 1919 < x + 256 ∧ y ≤ 0 ∧ 0 < y + 256)
      ∧ grid_tiles 1920 = 9 ∧ (grid_tiles 1920).tdiv 2 = 4
      ∧ dest_offset 1920 4 + 256 = 448
      ∧ RenderEvent.render_line 940 540 980 540 ∈ events := by
  obtain ⟨cy, hp⟩ := default_projection
  refine ⟨render_pass bmp_archive default_viewer 272 cy 1920 1080,
    map_viewer_render_active rfl hp 1920 1080, by decide, by decide,
    fun tile_x tile_y => by rw [get_tile_bmp_archive]; rfl, ?_,
    by decide, by decide, by decide, ?_⟩
  · rintro ⟨tile, x, y, hmem, hx0, hx1, _, _⟩
    rw [mem_render_pass_texture] at hmem
    obtain ⟨ty, tx, _, htx, _, hx, _, _, _⟩ := hmem
    have hg : grid_tiles 1920 = 9 := by decide
    rw [hg] at htx
    have hd : dest_offset 1920 tx = (tx : Int) * 256 - (1920 / 2 - 128) :=
      dest_offset_pos (by decide) (by decide) (by omega) (by rw [hg]; omega)
    rw [hx, hd] at hx1
    have h9 : tx < 9 := htx
    omega
  · unfold render_pass
    simp only [List.mem_append, List.mem_cons, List.mem_singleton]
    right
    right
    left
    decide

/-- C24 (amended): evaluated over the reals (exact arithmetic), for every viewport
with |center_lat| < 90 and zoom level in 0..18, `map_viewer_pan(viewer, 256, 0)`
shifts center_lon east by
40075016.686 / 111320 * cos(center_lat * pi / 180) / 2^zoom_level degrees, which is
strictly less than one tile width 360 / 2^zoom_level; the column value
(longitude + 180) / 360 * 2^zoom grows by
40075016.686 / (111320 * 360) * cos(center_lat * pi / 180), strictly between 0 and 1,
so the column returned by `latlon_to_tile` for the centre stays or advances by one. -/
theorem pan_256_less_than_tile (viewer : MapViewer) (hlat : |viewer.center_lat| < 90)
    (hz : zoom_inv viewer) :
    (map_viewer_pan viewer 256 0).center_lon
      = viewer.center_lon
        + 40075016.686 / 111320 * Real.cos (viewer.center_lat * Real.pi / 180)
            / (2 : ℝ) ^ viewer.zoom_level
    ∧ viewer.center_lon < (map_viewer_pan viewer 256 0).center_lon
    ∧ (map_viewer_pan viewer 256 0).center_lon
        < viewer.center_lon + 360 / (2 : ℝ) ^ viewer.zoom_level
    ∧ tile_x_real (map_viewer_pan viewer 256 0).center_lon viewer.zoom_level
        = tile_x_real viewer.center_lon viewer.zoom_level
          + 40075016.686 / (111320 * 360)
              * Real.cos (viewer.center_lat * Real.pi / 180)
    ∧ (∀ c c2 : Int,
        latlon_to_tile_x viewer.center_lon viewer.zoom_level = some c →
        latlon_to_tile_x (map_viewer_pan viewer 256 0).center_lon viewer.zoom_level
          = some c2 →
        c ≤ c2 ∧ c2 ≤ c + 1) := by
  obtain ⟨hi0, hi1⟩ := pan_256_increment hlat
  have hn : (0 : ℝ) < (2 : ℝ) ^ viewer.zoom_level := zpow_pos (by norm_num) _
  have hlon := pan_256_center_lon hz
  have hx := tile_x_real_pan_256 hz
  have hshift : 40075016.686 / 111320 * Real.cos (viewer.center_lat * Real.pi / 180)
      / (2 : ℝ) ^ viewer.zoom_level
      = 40075016.686 / (111320 * 360) * Real.cos (viewer.center_lat * Real.pi / 180)
          * (360 / (2 : ℝ) ^ viewer.zoom_level) := by
    field_simp
    ring
  have hw : (0 : ℝ) < 360 / (2 : ℝ) ^ viewer.zoom_level := div_pos (by norm_num) hn
  refine ⟨hlon, ?_, ?_, hx, ?_⟩
  · rw [hlon, hshift]
    have := mul_pos hi0 hw
    linarith
  · rw [hlon, hshift]
    have : 40075016.686 / (111320 * 360) * Real.cos (viewer.center_lat * Real.pi / 180)
        * (360 / (2 : ℝ) ^ viewer.zoom_level) < 1 * (360 / (2 : ℝ) ^ viewer.zoom_level) :=
      mul_lt_mul_of_pos_right hi1 hw
    linarith
  · intro c c2 h1 h2
    unfold latlon_to_tile_x double_to_int at h1 h2
    split_ifs at h1 h2
    simp only [Option.some.injEq] at h1 h2
    rw [← h1, ← h2, hx]
    exact c_trunc_step hi0.le hi1

/-- Witness of C24 (amended) at the default viewport: the pan by 256 pixels moves
the centre east by less than one tile width. -/
theorem pan_256_less_than_tile_witness :
    default_viewer.center_lon < (map_viewer_pan default_viewer 256 0).center_lon
    ∧ (map_viewer_pan default_viewer 256 0).center_lon
        < default_viewer.center_lon + 360 / (2 : ℝ) ^ default_viewer.zoom_level :=
  ⟨(pan_256_less_than_tile default_viewer
      (by
        show |(46.8797 : ℝ)| < 90
        rw [abs_lt]
        constructor <;> norm_num)
      (by unfold zoom_inv default_viewer; decide)).2.1,
   (pan_256_less_than_tile default_viewer
      (by
        show |(46.8797 : ℝ)| < 90
        rw [abs_lt]
        constructor <;> norm_num)
      (by unfold zoom_inv default_viewer; decide)).2.2.1⟩

/-- Counterexample to C24 as stated: at the default viewport (latitude 46.8797,
longitude -84.3397, zoom 10) the pan by 256 pixels does not shift center_lon by
360 / 2^10 degrees, and the column returned by `latlon_to_tile` is 272 before and
272 after the pan: it does not advance. -/
theorem pan_256_column_stays :
    (map_viewer_pan default_viewer 256 0).center_lon
      ≠ default_viewer.center_lon + 360 / (2 : ℝ) ^ (10 : Int)
    ∧ latlon_to_tile_x default_viewer.center_lon 10 = some 272
    ∧ latlon_to_tile_x (map_viewer_pan default_viewer 256 0).center_lon 10
        = some 272 := by
  have hzi : zoom_inv default_viewer := by unfold zoom_inv default_viewer; decide
  obtain ⟨hc0, hc1⟩ := cos_default_lat_bounds
  have hlon : (map_viewer_pan default_viewer 256 0).center_lon
      = (-84.3397 : ℝ)
        + 40075016.686 / 111320 * Real.cos (46.8797 * Real.pi / 180)
            / (2 : ℝ) ^ (10 : Int) := pan_256_center_lon hzi
  have hx : tile_x_real (map_viewer_pan default_viewer 256 0).center_lon 10
      = tile_x_real (-84.3397) 10
        + 40075016.686 / (111320 * 360) * Real.cos (46.8797 * Real.pi / 180) :=
    tile_x_real_pan_256 hzi
  have hv : tile_x_real (-84.3397) 10 = ((-84.3397 : ℝ) + 180) / 360 * 1024 := by
    unfold tile_x_real
    norm_num
  have hk0 : (0 : ℝ) < 40075016.686 / (111320 * 360) := by norm_num
  have hk1 : (40075016.686 : ℝ) / (111320 * 360) < 1 := by norm_num
  have hinc0 : 0 < 40075016.686 / (111320 * 360) * Real.cos (46.8797 * Real.pi / 180) :=
    mul_pos hk0 hc0
  have hinc1 : 40075016.686 / (111320 * 360) * Real.cos (46.8797 * Real.pi / 180)
      ≤ 3 / 4 := by nlinarith
  have hbefore : c_trunc (tile_x_real (-84.3397) 10) = 272 := by
    rw [hv, c_trunc_of_nonneg (by norm_num), Int.floor_eq_iff]
    norm_num
  have hafter : c_trunc (tile_x_real (map_viewer_pan default_viewer 256 0).center_lon 10)
      = 272 := by
    rw [hx, hv]
    have h272 : ((-84.3397 : ℝ) + 180) / 360 * 1024 ≥ 272 := by norm_num
    have h2721 : ((-84.3397 : ℝ) + 180) / 360 * 1024 < 272.2 := by norm_num
    rw [c_trunc_of_nonneg (by linarith), Int.floor_eq_iff]
    constructor
    · push_cast
      linarith
    · push_cast
      linarith
  refine ⟨?_, ?_, ?_⟩
  · rw [hlon]
    show (-84.3397 : ℝ) + 40075016.686 / 111320 * Real.cos (46.8797 * Real.pi / 180)
        / (2 : ℝ) ^ (10 : Int) ≠ (-84.3397 : ℝ) + 360 / (2 : ℝ) ^ (10 : Int)
    intro h
    have hpow : (2 : ℝ) ^ (10 : Int) = 1024 := by norm_num
    rw [hpow] at h
    have h3 : 40075016.686 / 111320 * Real.cos (46.8797 * Real.pi / 180) = 360 := by
      field_simp at h
      linarith
    have h4 : (40075016.686 : ℝ) / 111320 < 360 := by norm_num
    have h5 : (0 : ℝ) < 40075016.686 / 111320 := by norm_num
    nlinarith
  · show latlon_to_tile_x (-84.3397) 10 = some 272
    unfold latlon_to_tile_x
    rw [double_to_int_of_is_int (by rw [hbefore]; decide), hbefore]
  · unfold latlon_to_tile_x
    rw [double_to_int_of_is_int (by rw [hafter]; decide), hafter]

/-- C25: in the application state machine (the context set up by `main`, then any
number of main-loop iterations, each running `handle_events` on any events and
keyboard state), `ctx.show_map` equals `ctx.map_viewer.active` in every reachable
state, whether `map_viewer_init` succeeded or failed.  Consequently, while the map
view is hidden `map_viewer_render` and `render_dashboard` fetch no tile and no key
other than TAB changes the viewport; while it is shown, `render_dashboard` (after
the boot screen) runs the active render pass, which fetches 15 tiles at 800 x 480,
and the arrow and zoom keys pan and zoom the viewport. -/
theorem show_map_tracks_active (sqlite3_open : String → Int × Option Nat)
    (renderer : Nat) (frames : List FrameInput) (env : Env) (ctx : AppContext)
    (hctx : ctx = run_frames (app_start sqlite3_open renderer).2 frames) :
    ctx.show_map = ctx.map_viewer.active
    ∧ (ctx.show_map = false →
        map_viewer_render env ctx.map_viewer WINDOW_WIDTH WINDOW_HEIGHT = some []
        ∧ render_dashboard env ctx = some []
        ∧ ∀ (key : Key) (r_held : Bool), key ≠ Key.SDLK_TAB →
            (handle_key_down ctx key r_held).map_viewer = ctx.map_viewer)
    ∧ (ctx.show_map = true →
        (ctx.boot_complete = true →
          render_dashboard env ctx
            = map_viewer_render env ctx.map_viewer WINDOW_WIDTH WINDOW_HEIGHT)
        ∧ (∀ cx cy : Int,
            latlon_to_tile ctx.map_viewer.center_lat ctx.map_viewer.center_lon
                ctx.map_viewer.zoom_level = some (cx, cy) →
            map_viewer_render env ctx.map_viewer WINDOW_WIDTH WINDOW_HEIGHT
                = some (render_pass env ctx.map_viewer cx cy 800 480)
            ∧ (requested_tiles (render_pass env ctx.map_viewer cx cy 800 480)).length
                = 15)
        ∧ (∀ r_held : Bool,
            (handle_key_down ctx Key.SDLK_LEFT r_held).map_viewer
                = map_viewer_pan ctx.map_viewer (-50) 0
            ∧ (handle_key_down ctx Key.SDLK_RIGHT r_held).map_viewer
                = map_viewer_pan ctx.map_viewer 50 0
            ∧ (handle_key_down ctx Key.SDLK_DOWN r_held).map_viewer
                = map_viewer_pan ctx.map_viewer 0 50
            ∧ (handle_key_down ctx Key.SDLK_UP false).map_viewer
                = map_viewer_pan ctx.map_viewer 0 (-50)
            ∧ (handle_key_down ctx Key.SDLK_EQUALS r_held).map_viewer
                = map_viewer_zoom ctx.map_viewer 1
            ∧ (handle_key_down ctx Key.SDLK_PLUS r_held).map_viewer
                = map_viewer_zoom ctx.map_viewer 1
            ∧ (handle_key_down ctx Key.SDLK_MINUS r_held).map_viewer
                = map_viewer_zoom ctx.map_viewer (-1))) := by
  have hinv : ctx.show_map = ctx.map_viewer.active := by
    rw [hctx]
    exact run_frames_inv frames _ (app_start_inv sqlite3_open renderer)
  refine ⟨hinv, ?_, ?_⟩
  · intro hs
    have ha : ctx.map_viewer.active = false := by rw [← hinv]; exact hs
    refine ⟨?_, ?_, fun key r_held hk => handle_key_down_hidden ctx key r_held hs hk⟩
    · unfold map_viewer_render
      simp [ha]
    · unfold render_dashboard
      simp [hs]
  · intro hs
    have ha : ctx.map_viewer.active = true := by rw [← hinv]; exact hs
    refine ⟨?_, ?_, ?_⟩
    · intro hb
      unfold render_dashboard
      simp [hs, hb]
    · intro cx cy hp
      refine ⟨map_viewer_render_active ha hp 800 480, ?_⟩
      rw [length_requested_tiles_render_pass, grid_tiles_800, grid_tiles_480]
      rfl
    · intro r_held
      unfold handle_key_down
      simp [hs]

/-- Witness of C25: after a failed open and one frame with the keys SPACE, TAB,
RIGHT the map view is shown and the viewport is active. -/
theorem show_map_tracks_active_witness :
    (run_frames (app_start open_fails 0).2
        [{ events := [Event.SDL_EVENT_KEY_DOWN Key.SDLK_SPACE false,
                      Event.SDL_EVENT_KEY_DOWN Key.SDLK_TAB false,
                      Event.SDL_EVENT_KEY_DOWN Key.SDLK_RIGHT false],
           keys_r := false, keys_up := false, boot_elapsed := false }]).show_map
      = (run_frames (app_start open_fails 0).2
        [{ events := [Event.SDL_EVENT_KEY_DOWN Key.SDLK_SPACE false,
                      Event.SDL_EVENT_KEY_DOWN Key.SDLK_TAB false,
                      Event.SDL_EVENT_KEY_DOWN Key.SDLK_RIGHT false],
           keys_r := false, keys_up := false, boot_elapsed := false }]).map_viewer.active :=
  (show_map_tracks_active open_fails 0
    [{ events := [Event.SDL_EVENT_KEY_DOWN Key.SDLK_SPACE false,
                  Event.SDL_EVENT_KEY_DOWN Key.SDLK_TAB false,
                  Event.SDL_EVENT_KEY_DOWN Key.SDLK_RIGHT false],
       keys_r := false, keys_up := false, boot_elapsed := false }]
    empty_archive _ rfl).1

/-- C26: each viewport mutator changes only its own fields.  `map_viewer_pan` leaves
zoom_level, active, db and renderer unchanged; `map_viewer_zoom` leaves center_lat,
center_lon, active, db and renderer unchanged; `map_viewer_update_position` sets
center_lat and center_lon to its arguments and leaves zoom_level, active, db and
renderer unchanged; `map_viewer_toggle` negates active, leaves the centre, the zoom,
db and renderer unchanged, and applied twice restores the original viewport. -/
theorem mutators_frame (viewer : MapViewer) (dx dy delta : Int) (lat lon : ℝ) :
    ((map_viewer_pan viewer dx dy).zoom_level = viewer.zoom_level
      ∧ (map_viewer_pan viewer dx dy).active = viewer.active
      ∧ (map_viewer_pan viewer dx dy).db = viewer.db
      ∧ (map_viewer_pan viewer dx dy).renderer = viewer.renderer)
    ∧ ((map_viewer_zoom viewer delta).center_lat = viewer.center_lat
      ∧ (map_viewer_zoom viewer delta).center_lon = viewer.center_lon
      ∧ (map_viewer_zoom viewer delta).active = viewer.active
      ∧ (map_viewer_zoom viewer delta).db = viewer.db
      ∧ (map_viewer_zoom viewer delta).renderer = viewer.renderer)
    ∧ (map_viewer_update_position viewer lat lon
        = { viewer with center_lat := lat, center_lon := lon })
    ∧ ((map_viewer_toggle viewer).active = !viewer.active
      ∧ (map_viewer_toggle viewer).center_lat = viewer.center_lat
      ∧ (map_viewer_toggle viewer).center_lon = viewer.center_lon
      ∧ (map_viewer_toggle viewer).zoom_level = viewer.zoom_level
      ∧ (map_viewer_toggle viewer).db = viewer.db
      ∧ (map_viewer_toggle viewer).renderer = viewer.renderer
      ∧ map_viewer_toggle (map_viewer_toggle viewer) = viewer) := by
  refine ⟨⟨rfl, rfl, rfl, rfl⟩, ?_, rfl, ⟨rfl, rfl, rfl, rfl, rfl, rfl, ?_⟩⟩
  · unfold map_viewer_zoom
    simp only []
    split_ifs <;> simp
  · unfold map_viewer_toggle
    cases viewer
    simp

end SnowPi
